import Mathlib

/-
Verification of the `dexsearch` chat command of the naten-serv repository
(src/config/commands.js, `dexsearch`, lines 379-582).

The command is embedded shallowly: pure JavaScript computations become Lean
functions, the unbounded prevolution `while` loop becomes a fueled recursion
whose fuel exhaustion is a distinguished `hang` outcome, and a JavaScript
TypeError (reading a field of `undefined`) becomes a distinguished `crash`
outcome.  Catalog lookups (`Tools.getTemplate` / `Tools.getMove` /
`Tools.getAbility`), which live outside the embedded file, are modelled from
the spec as optional lookups (`lookupSpecies(name) -> Species?` etc.); a field
access on a `none` result is a `crash`, mirroring `undefined.field`.
-/

namespace DexSearch

/-- ASCII lowercasing (JS `toLowerCase` on the ASCII tokens involved),
character by character. -/
def jsLower (s : String) : String := String.mk (s.toList.map Char.toLower)

/-- Whitespace for JS `String.trim`. -/
def isWsChar (c : Char) : Bool := c == ' ' || c == '\t' || c == '\n' || c == '\r'

/-- JS `String.trim`: strip whitespace from both ends. -/
def jsTrim (s : String) : String :=
  String.mk (((s.toList.dropWhile isWsChar).reverse.dropWhile isWsChar).reverse)

/-- Split on every comma, keeping empty pieces (JS `String.split(',')`). -/
def splitCommaL (cs : List Char) : List (List Char) :=
  match cs with
  | [] => [[]]
  | c :: t =>
    let r := splitCommaL t
    if c == ',' then [] :: r
    else
      match r with
      | h :: t2 => (c :: h) :: t2
      | [] => [[c]]

/-- JS `String.split(',')` on the raw query target. -/
def splitComma (s : String) : List String := (splitCommaL s.toList).map String.mk

/-- Decimal rendering of a natural number (the `string(...)` conversion of the
result note); the extra argument is recursion fuel, always sufficient since a
number has at most as many digits as its value. -/
def natToStrAux : Nat → Nat → List Char → List Char
  | 0, _, acc => acc
  | fuel + 1, n, acc =>
    if n < 10 then Char.ofNat (48 + n) :: acc
    else natToStrAux fuel (n / 10) (Char.ofNat (48 + n % 10) :: acc)

/-- Decimal rendering of a natural number. -/
def natToStr (n : Nat) : String := String.mk (natToStrAux (n + 1) n [])

/-- Modelled from the spec: the global `toId` canonicalisation used by the
catalog lookup collaborators - lowercase and keep only alphanumerics. -/
def toId (s : String) : String :=
  String.mk ((jsLower s).toList.filter (fun c => c.isAlpha || c.isDigit))

/-- JavaScript-object lookup on an association list (first binding wins,
missing key is `none`, mirroring `undefined`). -/
def alookup (m : List (String × Bool)) (k : String) : Option Bool :=
  match m with
  | [] => none
  | (k2, v) :: t => if k2 == k then some v else alookup t k

/-- JavaScript-object insertion: overwrite the binding if the key exists,
otherwise append (JS objects keep insertion order). -/
def aset (m : List (String × Bool)) (k : String) (v : Bool) : List (String × Bool) :=
  match m with
  | [] => [(k, v)]
  | (k2, v2) :: t => if k2 == k then (k, v) :: t else (k2, v2) :: aset t k v

/-- Truthiness of a looked-up predicate value: only a stored `true` is truthy
(`undefined` and `false` are falsy). -/
def truthy (o : Option Bool) : Bool := o == some true

/-- Modelled from the spec: `Object.count(obj, true)` of the surrounding
repository - the number of keys whose stored value is exactly `true`. -/
def countTrue (m : List (String × Bool)) : Nat :=
  (m.filter (fun p => p.2 == true)).length

/-- A species template of the catalog (`Tools.data.Pokedex` entry as read by
`dexsearch`): the fields the command touches.  `learnset` is `none` when the
template has no `learnset` property; when present it is the list of move ids
occurring as keys (a present key is truthy in JS).  `prevo` is `none` when the
template has no (falsy) `prevo` field. -/
structure Species where
  id : String
  species : String
  types : List String
  tier : String
  color : String
  gen : Nat
  abilities : List String
  isMega : Bool
  evos : List String
  prevo : Option String
  baseSpecies : String
  learnset : Option (List String)
  deriving Repr, DecidableEq

/-- A move entry of the catalog: canonical id plus display name. -/
structure MoveData where
  id : String
  name : String
  deriving Repr, DecidableEq

/-- An ability entry of the catalog: canonical id plus display name. -/
structure AbilityData where
  id : String
  name : String
  deriving Repr, DecidableEq

/-- The read-only catalog the command queries: species templates in
`Pokedex` order, the move and ability tables, the type chart's type names,
and the LC format's ban list (`Tools.data.Formats['lc'].banlist`). -/
structure Catalog where
  pokedex : List Species
  moves : List MoveData
  abilities : List AbilityData
  typeNames : List String
  lcBanlist : List String
  deriving Repr, DecidableEq

/-- Modelled from the spec: `lookupSpecies(name) -> Species?` - canonicalise
the key and find the first template with that id. -/
def getTemplate (cat : Catalog) (k : String) : Option Species :=
  cat.pokedex.find? (fun s => s.id == toId k)

/-- Modelled from the spec: `lookupMove(name) -> Move?`. -/
def getMove (cat : Catalog) (k : String) : Option MoveData :=
  cat.moves.find? (fun m => m.id == toId k)

/-- Modelled from the spec: `lookupAbility(name) -> Ability?`. -/
def getAbility (cat : Catalog) (k : String) : Option AbilityData :=
  cat.abilities.find? (fun a => a.id == toId k)

/-- Value of a digit run (the token is already known to be all digits). -/
def digitsVal (cs : List Char) : Nat :=
  cs.foldl (fun a c => a * 10 + (c.toNat - 48)) 0

/-- JavaScript `parseInt` as applied to an already-trimmed token: optional
sign followed by a maximal digit run; no digits means `NaN`, i.e. `none`. -/
def parseIntJS (s : String) : Option Int :=
  let p : Bool × List Char :=
    match s.toList with
    | '-' :: t => (true, t)
    | '+' :: t => (false, t)
    | cs => (false, cs)
  let ds := p.2.takeWhile Char.isDigit
  if ds.isEmpty then none
  else some (if p.1 then -(digitsVal ds : Int) else (digitsVal ds : Int))

/-- First index at which `needle` occurs in `hay` (JS `String.indexOf` for a
nonempty needle). -/
def firstIdxOf (hay needle : List Char) : Option Nat :=
  match hay with
  | [] => none
  | _ :: t =>
    if needle.isPrefixOf hay then some 0 else (firstIdxOf t needle).map (· + 1)

/-- `target.charAt(0).toUpperCase() + target.slice(1, idx)` of the type-token
branch. -/
def typeTokenName (target : String) (idx : Nat) : String :=
  match target.toList with
  | [] => ""
  | c :: rest => String.mk (c.toUpper :: rest.take (idx - 1))

/-- Modelled from the spec: `Tools.escapeHTML`, replacing markup characters
by entities in the user-facing classification error. -/
def escapeHTML (s : String) : String :=
  s.toList.foldr (fun c acc =>
    (match c with
     | '&' => "&amp;"
     | '<' => "&lt;"
     | '>' => "&gt;"
     | '"' => "&quot;"
     | _ => String.mk [c]) ++ acc) ""

/-- The fixed tier vocabulary (`allTiers`, line 387). -/
def allTiersList : List String :=
  ["uber", "ou", "uu", "lc", "cap", "bl", "bl2", "ru", "bl3", "nu"]

/-- The fixed colour vocabulary (`allColours`, line 388). -/
def allColoursList : List String :=
  ["green", "red", "blue", "white", "brown", "yellow", "purple", "pink", "gray", "black"]

/-- Result of classifying one raw comma-separated token, mirroring the ordered
guards of the parse loop (lines 394-473).  `unknown` carries the final value of
the loop's `target` variable (after the type-branch rewrite, line 464) used in
the classification error message. -/
inductive TokClass where
  | ability (nm : String)
  | tier (v : String)
  | color (v : String)
  | gen (v : String)
  | allTok
  | mega
  | fe
  | move (nm : String)
  | typ (v : String)
  | unknown (tgt : String)
  deriving Repr, DecidableEq

/-- Classify one raw token: trim, lowercase, strip a leading `!` into the
negation flag, then try the source's guards in order.  Returns the class and
the final negation flag (inverted for `nfe`/`notfullyevolved`, line 448).
The ability guard (line 402) looks up the raw, untrimmed piece. -/
def classifyTok (cat : Catalog) (raw : String) : TokClass × Bool :=
  let cs0 := (jsLower (jsTrim raw)).toList
  let isNot := cs0.take 1 == ['!']
  let tgt := String.mk (if isNot then cs0.drop 1 else cs0)
  match getAbility cat raw with
  | some ab => (.ability ab.name, isNot)
  | none =>
    if allTiersList.contains tgt then (.tier tgt, isNot)
    else if allColoursList.contains tgt then (.color tgt, isNot)
    else if (match parseIntJS tgt with
             | some n => 0 < n && n < 7
             | none => false) then (.gen tgt, isNot)
    else if tgt == "all" then (.allTok, isNot)
    else if tgt == "megas" || tgt == "mega" then (.mega, isNot)
    else if tgt == "fe" || tgt == "fullyevolved" || tgt == "nfe" || tgt == "notfullyevolved" then
      (.fe, if tgt == "nfe" || tgt == "notfullyevolved" then !isNot else isNot)
    else
      match getMove cat tgt with
      | some mo => (.move mo.name, isNot)
      | none =>
        match firstIdxOf tgt.toList " type".toList with
        | some idx =>
          let ty := typeTokenName tgt idx
          if cat.typeNames.contains ty then (.typ ty, isNot) else (.unknown ty, isNot)
        | none => (.unknown tgt, isNot)

/-- The accumulating predicate state of the parse loop: the six category maps
(`searches`) plus the structural flags. -/
structure SearchState where
  ability : List (String × Bool)
  tier : List (String × Bool)
  color : List (String × Bool)
  gen : List (String × Bool)
  moves : List (String × Bool)
  types : List (String × Bool)
  showAll : Bool
  megaSearch : Option Bool
  feSearch : Option Bool
  deriving Repr, DecidableEq

/-- The fresh state at the start of a query (a category map is "not created"
exactly when it is empty: creation is immediately followed by an insertion and
keys are never deleted). -/
def initState : SearchState :=
  { ability := [], tier := [], color := [], gen := [], moves := [], types := []
    showAll := false, megaSearch := none, feSearch := none }

/-- `Object.size(searches)`: the number of category maps that have been
created. -/
def mapsCount (st : SearchState) : Nat :=
  (if st.ability.isEmpty then 0 else 1) + (if st.tier.isEmpty then 0 else 1) +
  (if st.color.isEmpty then 0 else 1) + (if st.gen.isEmpty then 0 else 1) +
  (if st.moves.isEmpty then 0 else 1) + (if st.types.isEmpty then 0 else 1)

def abilityCardMsg : String := "Specify only one ability."
def abilityConflictMsg : String := "A search cannot both exclude and include an ability."
def tierConflictMsg : String := "A search cannot both exclude and include a tier."
def colorConflictMsg : String := "A search cannot both exclude and include a color."
def genConflictMsg : String := "A search cannot both exclude and include a generation."
def broadcastMsg : String := "A search with the parameter \x27all\x27 cannot be broadcast."
def megaConflictMsg : String := "A search cannot both exclude and include Mega Evolutions."
def feConflictMsg : String := "A search cannot both exclude and include fully evolved Pokémon."
def moveCardMsg : String := "Specify a maximum of 4 moves."
def moveConflictMsg : String := "A search cannot both exclude and include a move."
def typeCardMsg : String := "Specify a maximum of two types."
def typeConflictMsg : String := "A search cannot both exclude and include a type."

def notFoundMsg (tgt : String) : String :=
  "\x27" ++ escapeHTML tgt ++ "\x27 could not be found in any of the search categories."

def emptyQueryMsg : String :=
  "No search parameters other than \x27all\x27 were found. Try \x27/help dexsearch\x27 for more information on this command."

/-- Insert one classified token into the predicate state, running the source's
cardinality and conflict guards in their order (an `error` is the early
`sendReplyBox` return).  `br` is `this.broadcasting` for the `all` token
(lines 433-439). -/
def insertTok (br : Bool) (st : SearchState) :
    TokClass → Bool → Except String SearchState
  | .ability nm, isNot =>
    if countTrue st.ability == 1 && !isNot then .error abilityCardMsg
    else if (alookup st.ability nm == some true && isNot) ||
            (alookup st.ability nm == some false && !isNot) then .error abilityConflictMsg
    else .ok { st with ability := aset st.ability nm (!isNot) }
  | .tier v, isNot =>
    if (alookup st.tier v == some true && isNot) ||
       (alookup st.tier v == some false && !isNot) then .error tierConflictMsg
    else .ok { st with tier := aset st.tier v (!isNot) }
  | .color v, isNot =>
    if (alookup st.color v == some true && isNot) ||
       (alookup st.color v == some false && !isNot) then .error colorConflictMsg
    else .ok { st with color := aset st.color v (!isNot) }
  | .gen v, isNot =>
    if (alookup st.gen v == some true && isNot) ||
       (alookup st.gen v == some false && !isNot) then .error genConflictMsg
    else .ok { st with gen := aset st.gen v (!isNot) }
  | .allTok, _ =>
    if br then .error broadcastMsg else .ok { st with showAll := true }
  | .mega, isNot =>
    if (st.megaSearch == some true && isNot) ||
       (st.megaSearch == some false && !isNot) then .error megaConflictMsg
    else .ok { st with megaSearch := some !isNot }
  | .fe, isNot =>
    if (st.feSearch == some true && isNot) ||
       (st.feSearch == some false && !isNot) then .error feConflictMsg
    else .ok { st with feSearch := some !isNot }
  | .move nm, isNot =>
    if countTrue st.moves == 4 && !isNot then .error moveCardMsg
    else if (alookup st.moves nm == some true && isNot) ||
            (alookup st.moves nm == some false && !isNot) then .error moveConflictMsg
    else .ok { st with moves := aset st.moves nm (!isNot) }
  | .typ v, isNot =>
    if countTrue st.types == 2 && !isNot then .error typeCardMsg
    else if (alookup st.types v == some true && isNot) ||
            (alookup st.types v == some false && !isNot) then .error typeConflictMsg
    else .ok { st with types := aset st.types v (!isNot) }
  | .unknown tgt, _ => .error (notFoundMsg tgt)

/-- Process one raw token: classify, then insert. -/
def stepTok (cat : Catalog) (br : Bool) (st : SearchState) (raw : String) :
    Except String SearchState :=
  let c := classifyTok cat raw
  insertTok br st c.1 c.2

/-- The parse loop over the comma-separated pieces, failing fast on the first
erroring token. -/
def parseLoop (cat : Catalog) (br : Bool) (st : SearchState) :
    List String → Except String SearchState
  | [] => .ok st
  | raw :: rest =>
    match stepTok cat br st raw with
    | .error e => .error e
    | .ok st2 => parseLoop cat br st2 rest

/-- Observable outcome of a `dexsearch` invocation: a `sendReplyBox` message
(result or user-facing error), a thrown JS TypeError (`crash`), or
non-termination of the prevolution `while` loop (`hang`). -/
inductive DexOut where
  | reply (msg : String)
  | crash
  | hang
  deriving Repr, DecidableEq

/-- Base admissibility plus structural flags (the scan of lines 478-487). -/
def baseKeep (st : SearchState) (s : Species) : Bool :=
  let megaOk := st.megaSearch == none || (st.megaSearch == some true && s.isMega) ||
    (st.megaSearch == some false && !s.isMega)
  let feOk := st.feSearch == none || (st.feSearch == some true && s.evos.isEmpty) ||
    (st.feSearch == some false && !s.evos.isEmpty)
  s.tier != "Unreleased" && s.tier != "Illegal" &&
    (s.tier != "CAP" || truthy (alookup st.tier "cap")) && megaOk && feOk

/-- Lookup of a type slot: a missing second slot is JS `undefined`, whose
map lookup is falsy. -/
def slotLookup (m : List (String × Bool)) (o : Option String) : Option Bool :=
  match o with
  | none => none
  | some ty => alookup m ty

/-- The deletion condition of the `types` category (lines 492-500). -/
def typesDel (m : List (String × Bool)) (s : Species) : Bool :=
  let l0 := slotLookup m (s.types.get? 0)
  let l1 := slotLookup m (s.types.get? 1)
  if countTrue m == 2 then !truthy l0 || !truthy l1
  else l0 == some false || l1 == some false ||
    (decide (countTrue m > 0) && !truthy l0 && !truthy l1)

/-- The shared whitelist/blacklist deletion condition of the `tier`, `gen` and
`color` categories (lines 514-516 and 523-525). -/
def genericDel (m : List (String × Bool)) (key : String) : Bool :=
  if alookup m key == some false then true
  else decide (countTrue m > 0) && !truthy (alookup m key)

/-- Dynamic LC legality (line 508): at least one evolution, no prevolution,
and not on the LC format's ban list. -/
def lcLegal (cat : Catalog) (s : Species) : Bool :=
  !s.evos.isEmpty && s.prevo == none && !(cat.lcBanlist.contains s.species)

/-- The keep condition of the `tier` category (lines 503-517): the dynamic LC
check when `lc` is constrained, then - for survivors - the generic
whitelist/blacklist on the stored tier. -/
def tierKeep (cat : Catalog) (m : List (String × Bool)) (s : Species) : Bool :=
  if (alookup m "lc").isSome then
    if truthy (alookup m "lc") != lcLegal cat s then false
    else !genericDel m (jsLower s.tier)
  else !genericDel m (jsLower s.tier)

/-- The deletion condition of the `ability` category (lines 528-538). -/
def abilityDel (m : List (String × Bool)) (s : Species) : Bool :=
  m.any (fun p => (decide (s.abilities.contains p.1) != p.2))

/-- The three moves excluded from the universal `sketch` legality
(line 553). -/
def sketchExcluded : List String := ["chatter", "struggle", "magikarpsrevenge"]

/-- The prevolution `while` loop (lines 550-552): step to the prevolution
while the current link has a (truthy) prevolution, has a learnset, and that
learnset lacks the move id.  A prevolution id that does not resolve makes the
next condition read a field of `undefined`: `crash`.  Fuel exhaustion is
`hang` (the source loop is unbounded). -/
def walk (cat : Catalog) : Nat → Species → String → Except DexOut Species
  | 0, _, _ => .error .hang
  | fuel + 1, t, mid =>
    match t.prevo, t.learnset with
    | some p, some ls =>
      if ls.contains mid then .ok t
      else
        match getTemplate cat p with
        | some t2 => walk cat fuel t2 mid
        | none => .error .crash
    | some _, none => .ok t
    | none, _ => .ok t

/-- The `canLearn` evaluation at the terminal link (line 553): it reads
`prevoTemp.learnset.sketch`, so a terminal link without a learnset is a
TypeError. -/
def canLearnB (t : Species) (mid : String) : Except DexOut Bool :=
  match t.learnset with
  | none => .error .crash
  | some ls =>
    .ok ((ls.contains "sketch" && !(sketchExcluded.contains mid)) || ls.contains mid)

def unknownMoveMsg (nm : String) : String := "\x27" ++ nm ++ "\x27 is not a known move."

/-- The per-species loop over the constrained moves (lines 546-555).  `t` is
the template fixed before the loop; each iteration re-looks-up
`Tools.getTemplate(template.id)` and walks from there.  `deleted` records
whether an earlier iteration already deleted the species (the JS loop keeps
iterating after a `delete`). -/
def movesEval (cat : Catalog) (fuel : Nat) (t : Species) :
    List (String × Bool) → Bool → Except DexOut Bool
  | [], deleted => .ok !deleted
  | (mv, pol) :: rest, deleted =>
    match getMove cat mv with
    | none => .error (.reply (unknownMoveMsg mv))
    | some mo =>
      match getTemplate cat t.id with
      | none => .error .crash
      | some tw =>
        match walk cat fuel tw mo.id with
        | .error h => .error h
        | .ok term =>
          match canLearnB term mo.id with
          | .error h => .error h
          | .ok cl =>
            movesEval cat fuel t rest
              (deleted || ((!cl && pol) || (pol == false && cl)))

/-- The per-species moves check (lines 542-556): pick the template, fall back
to the base species' template when it has no learnset, keep the species
unconditionally when that one has no learnset either, otherwise evaluate every
constrained move. -/
def movesKeep (cat : Catalog) (fuel : Nat) (m : List (String × Bool))
    (s : Species) : Except DexOut Bool :=
  match getTemplate cat s.id with
  | none => .error .crash
  | some t0 =>
    match (if t0.learnset.isSome then some t0 else getTemplate cat t0.baseSpecies) with
    | none => .error .crash
    | some t =>
      if t.learnset.isNone then .ok true
      else movesEval cat fuel t m false

/-- Effectful filter over the working set, in iteration order, short-circuiting
on the first early return or thrown error. -/
def filterME (f : Species → Except DexOut Bool) :
    List Species → Except DexOut (List Species)
  | [] => .ok []
  | s :: rest =>
    match f s with
    | .error h => .error h
    | .ok k =>
      match filterME f rest with
      | .error h => .error h
      | .ok r => .ok (if k then s :: r else r)

/-- The category reduction loop (lines 489-562), in the source's fixed order
`moves, types, ability, tier, gen, color`; a category runs only when its map
was created (equivalently, is nonempty). -/
def runFilters (cat : Catalog) (fuel : Nat) (st : SearchState)
    (dex : List Species) : Except DexOut (List Species) :=
  match (if st.moves.isEmpty then .ok dex
         else filterME (movesKeep cat fuel st.moves) dex : Except DexOut (List Species)) with
  | .error h => .error h
  | .ok d1 =>
    let d2 := if st.types.isEmpty then d1 else d1.filter (fun s => !typesDel st.types s)
    let d3 := if st.ability.isEmpty then d2 else d2.filter (fun s => !abilityDel st.ability s)
    let d4 := if st.tier.isEmpty then d3 else d3.filter (tierKeep cat st.tier)
    let d5 := if st.gen.isEmpty then d4 else d4.filter (fun s => !genericDel st.gen (natToStr s.gen))
    let d6 := if st.color.isEmpty then d5 else d5.filter (fun s => !genericDel st.color (jsLower s.color))
    .ok d6

/-- One step of the family deduplication filter (lines 565-568): drop a name
that differs from its template's base species name when that base name is in
the original (pre-filter) result list.  The `Tools.getTemplate(species)`
lookup on a missing name is a TypeError. -/
def dedupKeep (cat : Catalog) (orig : List String) (name : String) :
    Except DexOut Bool :=
  match getTemplate cat name with
  | none => .error .crash
  | some t => .ok (!(name != t.baseSpecies && orig.contains t.baseSpecies))

/-- Family deduplication over the whole name list. -/
def dedup (cat : Catalog) (names : List String) : Except DexOut (List String) :=
  let rec go : List String → Except DexOut (List String)
    | [] => .ok []
    | n :: rest =>
      match dedupKeep cat names n with
      | .error h => .error h
      | .ok k =>
        match go rest with
        | .error h => .error h
        | .ok r => .ok (if k then n :: r else r)
  go names

/-- Lexicographic comparison on code points (JS default array sort compares
strings by code units). -/
def strLeL : List Char → List Char → Bool
  | [], _ => true
  | _ :: _, [] => false
  | a :: as, b :: bs =>
    if a.toNat < b.toNat then true
    else if b.toNat < a.toNat then false
    else strLeL as bs

/-- Lexicographic comparison of display names. -/
def strLe (a b : String) : Bool := strLeL a.toList b.toList

/-- Insertion into an already-sorted list, for the alphabetical branch. -/
def insSorted (x : String) : List String → List String
  | [] => [x]
  | y :: t => if strLe x y then x :: y :: t else y :: insSorted x t

/-- `results.sort()`: lexicographic sort of the display names. -/
def sortStr (l : List String) : List String := l.foldr insSorted []

def noResultsMsg : String := "No Pokémon found."

def sampleNote : String :=
  " more. Redo the search with \x27all\x27 as a search parameter to show all results."

/-- The result assembler (lines 569-580).  `shuffle` stands for the in-place
`Array.prototype.randomize` of the surrounding repository (modelled from the
spec as an arbitrary reordering passed in); `string(results.length - output)`
renders the post-shuffle length minus the fixed `output = 10`. -/
def joinSep (sep : String) : List String → String
  | [] => ""
  | [x] => x
  | x :: xs => x ++ sep ++ joinSep sep xs

def assemble (shuffle : List String → List String) (showAll : Bool)
    (names : List String) : String :=
  if names.length > 0 then
    if showAll || names.length ≤ 10 then
      joinSep ", " (sortStr names)
    else
      let r := shuffle names
      joinSep ", " (r.take 10) ++ ", and " ++ natToStr (r.length - 10) ++ sampleNote
  else noResultsMsg

/-- The filter pipeline from base scan to deduplicated name list, for a given
predicate state. -/
def dexPipelineNames (cat : Catalog) (fuel : Nat) (st : SearchState) :
    Except DexOut (List String) :=
  match runFilters cat fuel st (cat.pokedex.filter (baseKeep st)) with
  | .error h => .error h
  | .ok dex2 => dedup cat (dex2.map (fun s => s.species))

def helpMsg : String := "/help dexsearch"

/-- The whole `dexsearch` command (lines 381-582): help on an empty target,
split on commas, parse, the empty-`all`-query guard (line 476), base scan,
category filters (fuel `|pokedex| + 1` for the unbounded source loop),
deduplication, assembly. -/
def dexsearchEmbed (cat : Catalog) (shuffle : List String → List String)
    (broadcasting : Bool) (target : String) : DexOut :=
  if target == "" then .reply helpMsg
  else
    match parseLoop cat broadcasting initState (splitComma target) with
    | .error msg => .reply msg
    | .ok st =>
      if st.showAll && mapsCount st == 0 && st.megaSearch == none && st.feSearch == none then
        .reply emptyQueryMsg
      else
        match dexPipelineNames cat (cat.pokedex.length + 1) st with
        | .error h => h
        | .ok names => .reply (assemble shuffle st.showAll names)

/-- Helper for building concrete species templates in the test catalogs. -/
def mkMon (id nm : String) (tys : List String) (tier : String) (evos : List String)
    (prevo : Option String) (base : String) (ls : Option (List String)) : Species :=
  { id := id, species := nm, types := tys, tier := tier, color := "Red", gen := 1,
    abilities := ["Overgrow"], isMega := false, evos := evos, prevo := prevo,
    baseSpecies := base, learnset := ls }

/-- A species that is dynamically LC-legal (has an evolution, no prevolution,
not banned) but whose stored tier is NU - the Ferroseed situation named by the
source's own comment (lines 506-507). -/
def ferroseedSpec : Species :=
  mkMon "ferroseed" "Ferroseed" ["Grass", "Steel"] "NU" ["ferrothorn"] none
    "Ferroseed" (some [])

/-- Catalog for the C1 failing input. -/
def c1cat : Catalog :=
  { pokedex := [ferroseedSpec], moves := [], abilities := [],
    typeNames := ["Grass", "Steel"], lcBanlist := [] }

/-- Catalog for the C3 counterexample: one Grass-type species so the query
carries a real type predicate besides `all`. -/
def c3cat : Catalog :=
  { pokedex := [mkMon "tangela" "Tangela" ["Grass"] "OU" [] none "Tangela" (some [])],
    moves := [], abilities := [], typeNames := ["Grass"], lcBanlist := [] }

/-- One of twelve single-letter species for the C5 counterexample. -/
def c5mon (i : Nat) : Species :=
  mkMon (String.mk [Char.ofNat (97 + i)]) (String.mk [Char.ofNat (65 + i)])
    ["Grass"] "OU" [] none (String.mk [Char.ofNat (65 + i)]) (some [])

/-- Catalog with twelve admissible OU species named A..L. -/
def c5cat : Catalog :=
  { pokedex := (List.range 12).map c5mon, moves := [], abilities := [],
    typeNames := ["Grass"], lcBanlist := [] }

/-- Catalog for the C9 counterexample: species A's prevolution B has no
learnset, so the `canLearn` read of `prevoTemp.learnset.sketch` is a
TypeError. -/
def c9cat : Catalog :=
  { pokedex := [mkMon "a" "A" ["Grass"] "OU" [] (some "b") "A" (some []),
                mkMon "b" "B" ["Grass"] "OU" ["a"] none "B" none],
    moves := [⟨"m", "M"⟩], abilities := [], typeNames := ["Grass"], lcBanlist := [] }

/-- C1: the claim says a `"lc"` query decides membership by the dynamic
LC-legality recomputation alone, including admissible species whose stored
tier differs from LC.  The source's own comment states this intent, but after
the dynamic check survives, control falls through to the stored-tier
whitelist (lines 514-516), which deletes every species whose stored tier is
not `lc`: Ferroseed is dynamically LC-legal with stored tier NU, yet the
query returns no results. -/
theorem c1_lc_stored_tier_overrides :
    lcLegal c1cat ferroseedSpec = true ∧
    ferroseedSpec.tier = "NU" ∧
    ferroseedSpec ∈ c1cat.pokedex ∧
    baseKeep { initState with tier := [("lc", true)] } ferroseedSpec = true ∧
    dexsearchEmbed c1cat id false "lc" = .reply noResultsMsg := by
  refine ⟨rfl, rfl, ?_, rfl, rfl⟩
  simp [c1cat]

/-- C3 counterexample: the claim says a broadcast query containing `all`
together with other predicates is not rejected as non-broadcastable; but the
source raises the rejection for any broadcast query containing the `all`
token (lines 433-439), so `"grass type, all"` - whose parsed state carries a
type predicate - is rejected. -/
theorem c3_counterexample :
    parseLoop c3cat false initState ["grass type"] =
      .ok { initState with types := [("Grass", true)] } ∧
    dexsearchEmbed c3cat id true "grass type, all" = .reply broadcastMsg := by
  exact ⟨rfl, rfl⟩

/-- C5 counterexample: the claim says the "and N more" note uses a fixed
constant so that N differs from the true overflow (result count minus 10);
but on a 12-result query the note reports exactly 2 = 12 - 10 omitted
names. -/
theorem c5_counterexample :
    dexsearchEmbed c5cat id false "ou" =
      .reply ("A, B, C, D, E, F, G, H, I, J, and 2 more. Redo the search with \x27all\x27 as a search parameter to show all results.") ∧
    (12 : Nat) - 10 = 2 := by
  exact ⟨rfl, rfl⟩

/-- C9 counterexample: the claim says `dexsearch` completes with a plain
message string for every catalog; but when a move predicate walks to a
prevolution whose template has no learnset, the `canLearn` evaluation reads
`prevoTemp.learnset.sketch` on `undefined` and throws: on `c9cat` the query
`"m"` crashes instead of replying. -/
theorem c9_counterexample :
    dexsearchEmbed c9cat id false "m" = .crash := by
  exact rfl

/-- Unfolding equation for the parse loop on a nonempty token list. -/
theorem parseLoop_cons (cat : Catalog) (br : Bool) (st : SearchState)
    (raw : String) (rest : List String) :
    parseLoop cat br st (raw :: rest) =
      (match stepTok cat br st raw with
       | Except.error e => Except.error e
       | Except.ok st2 => parseLoop cat br st2 rest) := rfl

/-- Processing a concatenation of token lists runs the first part and, if it
succeeds, continues with the second from the resulting state. -/
theorem parseLoop_append (cat : Catalog) (br : Bool) (st : SearchState)
    (l1 l2 : List String) :
    parseLoop cat br st (l1 ++ l2) =
      (match parseLoop cat br st l1 with
       | Except.error e => Except.error e
       | Except.ok st2 => parseLoop cat br st2 l2) := by
  induction l1 generalizing st with
  | nil => rfl
  | cons a t ih =>
    rw [List.cons_append, parseLoop_cons, parseLoop_cons]
    cases stepTok cat br st a with
    | error e => rfl
    | ok st2 => simpa using ih st2

/-- A token whose trimmed lowercase form is `all` and which is not an ability
name classifies as the `all` keyword with no negation. -/
theorem classify_all (cat : Catalog) (raw : String)
    (hall : jsLower (jsTrim raw) = "all") (hab : getAbility cat raw = none) :
    classifyTok cat raw = (.allTok, false) := by
  unfold classifyTok
  rw [hall, hab]
  rfl

/-- C3 (amended): the non-broadcastable rejection is raised during token
parsing - before the filter pipeline runs - for every broadcast query in
which an `all` token is reached without an earlier parse error, regardless of
any other predicates in the query. -/
theorem c3_all_broadcast_amended
    (cat : Catalog) (shuffle : List String → List String) (target raw : String)
    (l1 l2 : List String) (st1 : SearchState)
    (hsplit : splitComma target = l1 ++ raw :: l2)
    (hpre : parseLoop cat true initState l1 = .ok st1)
    (hall : jsLower (jsTrim raw) = "all")
    (hab : getAbility cat raw = none) :
    dexsearchEmbed cat shuffle true target = .reply broadcastMsg := by
  have hstep : stepTok cat true st1 raw = .error broadcastMsg := by
    unfold stepTok
    rw [classify_all cat raw hall hab]
    rfl
  have hparse : parseLoop cat true initState (splitComma target) = .error broadcastMsg := by
    rw [hsplit, parseLoop_append, hpre]
    show parseLoop cat true st1 (raw :: l2) = _
    unfold parseLoop
    rw [hstep]
  have hne : target ≠ "" := by
    intro h
    subst h
    have h1 : l1 ++ raw :: l2 = [""] := by rw [← hsplit]; rfl
    have hraw : raw = "" := by
      cases l1 with
      | nil => exact (by simpa using h1 : raw = "" ∧ l2 = []).1
      | cons a t => simp at h1
    rw [hraw] at hall
    exact absurd hall (by decide)
  have hne2 : (target == "") = false := beq_eq_false_iff_ne.mpr hne
  unfold dexsearchEmbed
  simp only [hne2, Bool.false_eq_true, if_false, hparse]

/-- C5 (amended): when `showAll` is off and more than 10 names remain, the
assembler shuffles the full list, emits the first 10 names, and the "and N
more" note reports exactly the true overflow count: the result count minus
the fixed output cap of 10. -/
theorem c5_overflow_note_amended
    (shuffle : List String → List String) (names : List String)
    (h10 : 10 < names.length)
    (hlen : (shuffle names).length = names.length) :
    assemble shuffle false names =
      joinSep ", " ((shuffle names).take 10) ++ ", and " ++
        natToStr (names.length - 10) ++ sampleNote := by
  unfold assemble
  rw [if_pos (by omega), if_neg (by simpa using by omega)]
  show joinSep ", " ((shuffle names).take 10) ++ ", and " ++
    natToStr ((shuffle names).length - 10) ++ sampleNote = _
  rw [hlen]

/-- C10: a species whose own template has no learnset and whose base species'
template has no learnset either is kept by the move filter unconditionally,
whatever moves are constrained and with either polarity, with no learnability
evaluation. -/
theorem c10_no_learnset_passes_moves
    (cat : Catalog) (fuel : Nat) (m : List (String × Bool)) (s t0 t1 : Species)
    (h0 : getTemplate cat s.id = some t0) (h0l : t0.learnset = none)
    (h1 : getTemplate cat t0.baseSpecies = some t1) (h1l : t1.learnset = none) :
    movesKeep cat fuel m s = .ok true := by
  simp [movesKeep, h0, h0l, h1, h1l]

/-- The catalog for the C10 witness: a single species with no learnset (its
base species is itself, so the fallback template has none either), and one
existing move. -/
def c10mon : Species := mkMon "x" "X" ["Grass"] "OU" [] none "X" none

def c10cat : Catalog :=
  { pokedex := [c10mon], moves := [⟨"m", "M"⟩], abilities := [],
    typeNames := ["Grass"], lcBanlist := [] }

/-- Witness for C3's amended theorem: the broadcast query `"red, all"`
carries a colour predicate and is still rejected during parsing. -/
theorem c3_witness :
    dexsearchEmbed c3cat id true "red, all" = .reply broadcastMsg :=
  c3_all_broadcast_amended c3cat id "red, all" " all" ["red"] []
    { initState with color := [("red", true)] } rfl rfl rfl rfl

def c5names : List String :=
  ["A", "B", "C", "D", "E", "F", "G", "H", "I", "J", "K", "L"]

/-- Witness for C5's amended theorem: on twelve names the note reports
`12 - 10 = 2` omitted names. -/
theorem c5_witness :
    10 < c5names.length ∧
    assemble id false c5names =
      joinSep ", " ((id c5names).take 10) ++ ", and " ++
        natToStr (c5names.length - 10) ++ sampleNote :=
  ⟨by decide, c5_overflow_note_amended id c5names (by decide) rfl⟩

/-- Witness for C10: the learnset-less species `X` passes the move filter for
the included move `M` - which it cannot learn - and appears in the output of
the query `"m"`. -/
theorem c10_witness :
    movesKeep c10cat 2 [("M", true)] c10mon = .ok true ∧
    dexsearchEmbed c10cat id false "m" = .reply "X" :=
  ⟨c10_no_learnset_passes_moves c10cat 2 [("M", true)] c10mon c10mon c10mon
    rfl rfl rfl rfl, rfl⟩

/-- The conflict message of each polarised category (`allTok` has no polarity
and an unclassifiable token has no category). -/
def conflictMsgOf : TokClass → Option String
  | .ability _ => some abilityConflictMsg
  | .tier _ => some tierConflictMsg
  | .color _ => some colorConflictMsg
  | .gen _ => some genConflictMsg
  | .allTok => none
  | .mega => some megaConflictMsg
  | .fe => some feConflictMsg
  | .move _ => some moveConflictMsg
  | .typ _ => some typeConflictMsg
  | .unknown _ => none

/-- Lookup after a JS-object insertion: the inserted key reads back the new
value, every other key is untouched. -/
theorem alookup_aset (m : List (String × Bool)) (k1 k2 : String) (v : Bool) :
    alookup (aset m k1 v) k2 = if k1 == k2 then some v else alookup m k2 := by
  induction m with
  | nil => rfl
  | cons p t ih =>
    obtain ⟨k3, v3⟩ := p
    by_cases h : (k3 == k1) = true
    · have hk31 : k3 = k1 := eq_of_beq h
      subst hk31
      by_cases h2 : (k3 == k2) = true
      · simp [aset, alookup, h2]
      · simp [aset, alookup, h2]
    · have hb : (k3 == k1) = false := by
        rcases hg : k3 == k1 with _ | _
        · rfl
        · exact absurd hg h
      by_cases h2 : (k3 == k2) = true
      · have hk32 : k3 = k2 := eq_of_beq h2
        subst hk32
        have h12 : (k1 == k3) = false := by
          rcases hg : k1 == k3 with _ | _
          · rfl
          · exact absurd (by rw [eq_of_beq hg]; exact beq_self_eq_true k3) h
        simp [aset, alookup, hb, h2, h12]
      · simp [aset, alookup, hb, h2, ih]

/-- The polarity a predicate state currently stores for a classified token's
category and value (`none` when unconstrained, or for the polarity-free
`all`/unclassifiable tokens). -/
def polOf (k : TokClass) (st : SearchState) : Option Bool :=
  match k with
  | .ability nm => alookup st.ability nm
  | .tier v => alookup st.tier v
  | .color v => alookup st.color v
  | .gen v => alookup st.gen v
  | .move nm => alookup st.moves nm
  | .typ v => alookup st.types v
  | .mega => st.megaSearch
  | .fe => st.feSearch
  | .allTok => none
  | .unknown _ => none

/-- The cardinality guard the source checks before the conflict guard
(lines 405, 457, 467): it can fire only for a positively-polarised ability,
move or type token. -/
def cardGuard (k : TokClass) (st : SearchState) (isNot : Bool) : Bool :=
  match k with
  | .ability _ => countTrue st.ability == 1 && !isNot
  | .move _ => countTrue st.moves == 4 && !isNot
  | .typ _ => countTrue st.types == 2 && !isNot
  | _ => false

/-- An insertion that passed the conflict guard never changes the polarity
already stored for a value. -/
theorem aset_guard_preserves (m : List (String × Bool)) (nm2 nm : String)
    (n2 b : Bool) (hpol : alookup m nm = some b)
    (hguard : ((alookup m nm2 == some true && n2) ||
               (alookup m nm2 == some false && !n2)) = false) :
    alookup (aset m nm2 (!n2)) nm = some b := by
  rw [alookup_aset]
  by_cases h : (nm2 == nm) = true
  · have : nm2 = nm := eq_of_beq h
    subst this
    rw [hpol] at hguard
    rw [if_pos h]
    cases b <;> cases n2 <;> simp_all
  · have hb : (nm2 == nm) = false := by
      rcases hg : nm2 == nm with _ | _
      · rfl
      · exact absurd hg h
    rw [hb]
    show alookup m nm = some b
    exact hpol

/-- Processing a token of a polarised category stores that token's polarity
for its value. -/
theorem stepTok_sets_polOf (cat : Catalog) (br : Bool) (st : SearchState)
    (raw : String) (st' : SearchState) (k : TokClass) (n : Bool)
    (hcl : classifyTok cat raw = (k, n))
    (hmsg : (conflictMsgOf k).isSome = true)
    (hstep : stepTok cat br st raw = .ok st') :
    polOf k st' = some (!n) := by
  unfold stepTok at hstep
  rw [hcl] at hstep
  have hstep2 : insertTok br st k n = .ok st' := hstep
  cases k with
  | ability nm =>
    simp only [insertTok] at hstep2
    split_ifs at hstep2
    cases hstep2
    simp only [polOf]
    rw [alookup_aset]
    simp
  | tier v =>
    simp only [insertTok] at hstep2
    split_ifs at hstep2
    cases hstep2
    simp only [polOf]
    rw [alookup_aset]
    simp
  | color v =>
    simp only [insertTok] at hstep2
    split_ifs at hstep2
    cases hstep2
    simp only [polOf]
    rw [alookup_aset]
    simp
  | gen v =>
    simp only [insertTok] at hstep2
    split_ifs at hstep2
    cases hstep2
    simp only [polOf]
    rw [alookup_aset]
    simp
  | allTok => simp [conflictMsgOf] at hmsg
  | mega =>
    simp only [insertTok] at hstep2
    split_ifs at hstep2
    cases hstep2
    rfl
  | fe =>
    simp only [insertTok] at hstep2
    split_ifs at hstep2
    cases hstep2
    rfl
  | move nm =>
    simp only [insertTok] at hstep2
    split_ifs at hstep2
    cases hstep2
    simp only [polOf]
    rw [alookup_aset]
    simp
  | typ v =>
    simp only [insertTok] at hstep2
    split_ifs at hstep2
    cases hstep2
    simp only [polOf]
    rw [alookup_aset]
    simp
  | unknown tgt => simp [conflictMsgOf] at hmsg

/-- A successfully processed token never changes a stored polarity: it either
writes another key, re-writes the same value, or would have failed the
conflict guard. -/
theorem stepTok_preserves_polOf (cat : Catalog) (br : Bool) (st : SearchState)
    (raw : String) (st' : SearchState) (k : TokClass) (b : Bool)
    (hstep : stepTok cat br st raw = .ok st')
    (hpol : polOf k st = some b) :
    polOf k st' = some b := by
  unfold stepTok at hstep
  rcases hcl : classifyTok cat raw with ⟨k2, n2⟩
  rw [hcl] at hstep
  have hstep2 : insertTok br st k2 n2 = .ok st' := hstep
  cases k2 with
  | ability nm2 =>
    simp only [insertTok] at hstep2
    split_ifs at hstep2 with hg1 hg2
    cases hstep2
    cases k <;> try exact hpol
    rename_i nm
    simp only [polOf] at hpol ⊢
    exact aset_guard_preserves st.ability nm2 nm n2 b hpol
      ((Bool.not_eq_true _) ▸ hg2)
  | tier v2 =>
    simp only [insertTok] at hstep2
    split_ifs at hstep2 with hg
    cases hstep2
    cases k <;> try exact hpol
    rename_i v
    simp only [polOf] at hpol ⊢
    exact aset_guard_preserves st.tier v2 v n2 b hpol
      ((Bool.not_eq_true _) ▸ hg)
  | color v2 =>
    simp only [insertTok] at hstep2
    split_ifs at hstep2 with hg
    cases hstep2
    cases k <;> try exact hpol
    rename_i v
    simp only [polOf] at hpol ⊢
    exact aset_guard_preserves st.color v2 v n2 b hpol
      ((Bool.not_eq_true _) ▸ hg)
  | gen v2 =>
    simp only [insertTok] at hstep2
    split_ifs at hstep2 with hg
    cases hstep2
    cases k <;> try exact hpol
    rename_i v
    simp only [polOf] at hpol ⊢
    exact aset_guard_preserves st.gen v2 v n2 b hpol
      ((Bool.not_eq_true _) ▸ hg)
  | allTok =>
    simp only [insertTok] at hstep2
    split_ifs at hstep2
    cases hstep2
    cases k <;> exact hpol
  | mega =>
    simp only [insertTok] at hstep2
    split_ifs at hstep2 with hg
    cases hstep2
    cases k <;> try exact hpol
    simp only [polOf] at hpol ⊢
    have hg' := (Bool.not_eq_true _) ▸ hg
    rw [hpol] at hg'
    show some (!n2) = some b
    cases b <;> cases n2 <;> simp_all
  | fe =>
    simp only [insertTok] at hstep2
    split_ifs at hstep2 with hg
    cases hstep2
    cases k <;> try exact hpol
    simp only [polOf] at hpol ⊢
    have hg' := (Bool.not_eq_true _) ▸ hg
    rw [hpol] at hg'
    show some (!n2) = some b
    cases b <;> cases n2 <;> simp_all
  | move nm2 =>
    simp only [insertTok] at hstep2
    split_ifs at hstep2 with hg1 hg2
    cases hstep2
    cases k <;> try exact hpol
    rename_i nm
    simp only [polOf] at hpol ⊢
    exact aset_guard_preserves st.moves nm2 nm n2 b hpol
      ((Bool.not_eq_true _) ▸ hg2)
  | typ v2 =>
    simp only [insertTok] at hstep2
    split_ifs at hstep2 with hg1 hg2
    cases hstep2
    cases k <;> try exact hpol
    rename_i v
    simp only [polOf] at hpol ⊢
    exact aset_guard_preserves st.types v2 v n2 b hpol
      ((Bool.not_eq_true _) ▸ hg2)
  | unknown tgt => cases hstep2

/-- A successful parse of any token list preserves a stored polarity. -/
theorem parseLoop_preserves_polOf (cat : Catalog) (br : Bool) (k : TokClass)
    (b : Bool) :
    ∀ (l : List String) (st st' : SearchState),
      parseLoop cat br st l = .ok st' → polOf k st = some b →
      polOf k st' = some b := by
  intro l
  induction l with
  | nil =>
    intro st st' h hp
    injection h with h
    subst h
    exact hp
  | cons raw rest ih =>
    intro st st' h hp
    rw [parseLoop_cons] at h
    rcases hs : stepTok cat br st raw with e | st1
    · rw [hs] at h
      have h2 : (Except.error e : Except String SearchState) = .ok st' := h
      cases h2
    · rw [hs] at h
      have h2 : parseLoop cat br st1 rest = .ok st' := h
      exact ih st1 st' h2 (stepTok_preserves_polOf cat br st raw st1 k b hs hp)

/-- A token whose category and value already store the opposite polarity hits
the conflict guard - provided the cardinality guard checked first does not
fire. -/
theorem stepTok_conflict (cat : Catalog) (br : Bool) (st : SearchState)
    (raw : String) (k : TokClass) (n : Bool) (msg : String)
    (hcl : classifyTok cat raw = (k, n))
    (hmsg : conflictMsgOf k = some msg)
    (hpol : polOf k st = some n)
    (hcard : cardGuard k st n = false) :
    stepTok cat br st raw = .error msg := by
  unfold stepTok
  rw [hcl]
  show insertTok br st k n = .error msg
  cases k with
  | ability nm =>
    injection hmsg with hmsg
    subst hmsg
    simp only [polOf] at hpol
    simp only [cardGuard] at hcard
    cases n with
    | false =>
      simp only [Bool.not_false, Bool.and_true] at hcard
      simp [insertTok, hcard, hpol]
    | true => simp [insertTok, hpol]
  | tier v =>
    injection hmsg with hmsg
    subst hmsg
    simp only [polOf] at hpol
    cases n <;> simp [insertTok, hpol]
  | color v =>
    injection hmsg with hmsg
    subst hmsg
    simp only [polOf] at hpol
    cases n <;> simp [insertTok, hpol]
  | gen v =>
    injection hmsg with hmsg
    subst hmsg
    simp only [polOf] at hpol
    cases n <;> simp [insertTok, hpol]
  | allTok => simp [conflictMsgOf] at hmsg
  | mega =>
    injection hmsg with hmsg
    subst hmsg
    simp only [polOf] at hpol
    cases n <;> simp [insertTok, hpol]
  | fe =>
    injection hmsg with hmsg
    subst hmsg
    simp only [polOf] at hpol
    cases n <;> simp [insertTok, hpol]
  | move nm =>
    injection hmsg with hmsg
    subst hmsg
    simp only [polOf] at hpol
    simp only [cardGuard] at hcard
    cases n with
    | false =>
      simp only [Bool.not_false, Bool.and_true] at hcard
      simp [insertTok, hcard, hpol]
    | true => simp [insertTok, hpol]
  | typ v =>
    injection hmsg with hmsg
    subst hmsg
    simp only [polOf] at hpol
    simp only [cardGuard] at hcard
    cases n with
    | false =>
      simp only [Bool.not_false, Bool.and_true] at hcard
      simp [insertTok, hcard, hpol]
    | true => simp [insertTok, hpol]
  | unknown tgt => simp [conflictMsgOf] at hmsg

/-- Catalog with an empty ability table for the C4 witness (tier vocabulary
wins the classification). -/
def c4cat : Catalog :=
  { pokedex := [], moves := [], abilities := [], typeNames := [], lcBanlist := [] }

/-- Catalog with two abilities for the C4 counterexample and witness. -/
def c4cat2 : Catalog :=
  { pokedex := [], moves := [],
    abilities := [⟨"sturdy", "Sturdy"⟩, ⟨"magnetpull", "Magnet Pull"⟩],
    typeNames := [], lcBanlist := [] }

/-- C4 counterexample: the token list `sturdy, magnetpull, !sturdy` requests
the ability Sturdy with both polarities, yet the parse fails with the
line-405 cardinality message "Specify only one ability." - not the
ConflictingPredicate error - because the intervening positive ability token
hits the one-required-ability cap before the conflicting token is ever
reached. -/
theorem c4_counterexample :
    parseLoop c4cat2 false initState ["sturdy", "magnetpull", "!sturdy"] =
      .error abilityCardMsg ∧
    abilityCardMsg ≠ abilityConflictMsg :=
  ⟨rfl, by decide⟩

/-- C4 (amended): if a query requests the same value with both polarities in
one category, then - whenever the parse reaches the second member of the
pair without an earlier error, and that insertion does not simultaneously
hit the category's cardinality cap (possible only for a positively-polarised
ability, move or type token) - the parse fails with that category's "cannot
both exclude and include" error, regardless of the pair's order or of the
other tokens around it; in particular for the two-token query of the pair
alone in either order.  The whole command then replies with that error. -/
theorem c4_conflict_amended (cat : Catalog) (br : Bool) (t1 t2 : String)
    (k : TokClass) (n1 : Bool) (msg : String)
    (l1 l2 l3 : List String) (st2 : SearchState)
    (h1 : classifyTok cat t1 = (k, n1))
    (h2 : classifyTok cat t2 = (k, !n1))
    (hmsg : conflictMsgOf k = some msg)
    (hpre : parseLoop cat br initState (l1 ++ t1 :: l2) = .ok st2)
    (hcard : cardGuard k st2 (!n1) = false) :
    parseLoop cat br initState (l1 ++ t1 :: l2 ++ t2 :: l3) = .error msg ∧
    ∀ (target : String) (shuffle : List String → List String),
      splitComma target = l1 ++ t1 :: l2 ++ t2 :: l3 →
      dexsearchEmbed cat shuffle br target = .reply msg := by
  have hpreO := hpre
  rw [parseLoop_append] at hpre
  rcases hl1 : parseLoop cat br initState l1 with e | st0
  · rw [hl1] at hpre
    have h3 : (Except.error e : Except String SearchState) = .ok st2 := hpre
    cases h3
  · rw [hl1] at hpre
    have hpre2 : parseLoop cat br st0 (t1 :: l2) = .ok st2 := hpre
    rw [parseLoop_cons] at hpre2
    rcases hs1 : stepTok cat br st0 t1 with e | st1
    · rw [hs1] at hpre2
      have h3 : (Except.error e : Except String SearchState) = .ok st2 := hpre2
      cases h3
    · rw [hs1] at hpre2
      have hpre3 : parseLoop cat br st1 l2 = .ok st2 := hpre2
      have hisSome : (conflictMsgOf k).isSome = true := by
        rw [hmsg]
        rfl
      have hset : polOf k st1 = some (!n1) :=
        stepTok_sets_polOf cat br st0 t1 st1 k n1 h1 hisSome hs1
      have hkeep : polOf k st2 = some (!n1) :=
        parseLoop_preserves_polOf cat br k (!n1) l2 st1 st2 hpre3 hset
      have hconf : stepTok cat br st2 t2 = .error msg :=
        stepTok_conflict cat br st2 t2 k (!n1) msg h2 hmsg hkeep hcard
      have hmain : parseLoop cat br initState (l1 ++ t1 :: l2 ++ t2 :: l3) =
          .error msg := by
        rw [parseLoop_append, hpreO]
        show parseLoop cat br st2 (t2 :: l3) = .error msg
        rw [parseLoop_cons, hconf]
      refine ⟨hmain, ?_⟩
      intro target shuffle hsplit
      have hne : target ≠ "" := by
        intro h
        subst h
        have heq : ([""] : List String) = l1 ++ t1 :: l2 ++ t2 :: l3 := hsplit
        have hlen := congrArg List.length heq
        simp at hlen
        omega
      have hne2 : (target == "") = false := beq_eq_false_iff_ne.mpr hne
      have hmain2 : parseLoop cat br initState (splitComma target) = .error msg := by
        rw [hsplit]
        exact hmain
      unfold dexsearchEmbed
      simp only [hne2, Bool.false_eq_true, if_false, hmain2]

/-- Witness for C4's amended theorem: the adjacent pair with a trailing third
token (`sturdy, !sturdy, magnetpull` - same tokens as the counterexample in
another order), the pair separated and reversed behind a colour token
(`red, !ou, ou`), and the full command on the raw query string. -/
theorem c4_witness :
    parseLoop c4cat2 false initState ["sturdy", " !sturdy", " magnetpull"] =
      .error abilityConflictMsg ∧
    parseLoop c4cat false initState ["red", "!ou", "ou"] =
      .error tierConflictMsg ∧
    dexsearchEmbed c4cat2 id false "sturdy, !sturdy, magnetpull" =
      .reply abilityConflictMsg :=
  ⟨(c4_conflict_amended c4cat2 false "sturdy" " !sturdy" (.ability "Sturdy")
      false abilityConflictMsg [] [] [" magnetpull"]
      { initState with ability := [("Sturdy", true)] } rfl rfl rfl rfl rfl).1,
   (c4_conflict_amended c4cat false "!ou" "ou" (.tier "ou") true
      tierConflictMsg ["red"] [] []
      { initState with color := [("red", true)], tier := [("ou", false)] }
      rfl rfl rfl rfl rfl).1,
   (c4_conflict_amended c4cat2 false "sturdy" " !sturdy" (.ability "Sturdy")
      false abilityConflictMsg [] [] [" magnetpull"]
      { initState with ability := [("Sturdy", true)] } rfl rfl rfl rfl rfl).2
     "sturdy, !sturdy, magnetpull" id rfl⟩

/-- The values of a category map that carry polarity `true`, in map order. -/
def trueKeys (m : List (String × Bool)) : List String :=
  (m.filter (fun p => p.2 == true)).map Prod.fst

theorem countTrue_eq_length_trueKeys (m : List (String × Bool)) :
    countTrue m = (trueKeys m).length := by
  simp [countTrue, trueKeys]

theorem mem_trueKeys_mem_keys (m : List (String × Bool)) (k : String)
    (h : k ∈ trueKeys m) : k ∈ m.map Prod.fst := by
  simp only [trueKeys, List.mem_map, List.mem_filter] at h
  obtain ⟨p, ⟨hp, _⟩, hk⟩ := h
  exact List.mem_map.mpr ⟨p, hp, hk⟩

/-- Over a map with no duplicate keys, a lookup returns `true` exactly when
the key is among the polarity-`true` values. -/
theorem alookup_some_true_iff (m : List (String × Bool))
    (hkeys : (m.map Prod.fst).Nodup) (k : String) :
    alookup m k = some true ↔ k ∈ trueKeys m := by
  induction m with
  | nil => simp [alookup, trueKeys]
  | cons p t ih =>
    obtain ⟨k2, v⟩ := p
    simp only [List.map_cons, List.nodup_cons] at hkeys
    by_cases hk : k2 = k
    · subst hk
      cases v with
      | false =>
        simp only [alookup, trueKeys, List.filter_cons]
        simp only [beq_self_eq_true, if_true]
        norm_num
        intro hmem
        exact absurd (mem_trueKeys_mem_keys t k2 (by simpa [trueKeys] using hmem)) hkeys.1
      | true =>
        simp [alookup, trueKeys, List.filter_cons]
    · have hbeq : (k2 == k) = false := beq_eq_false_iff_ne.mpr hk
      cases v with
      | false => simp [alookup, trueKeys, List.filter_cons, hbeq, ih hkeys.2]
      | true => simp [alookup, trueKeys, List.filter_cons, hbeq, Ne.symm hk, ih hkeys.2]

/-- C6: with exactly two polarity-`true` type values a species survives the
type filter iff its two type slots are exactly those two values in either
order (in particular every mono-typed species is removed); in every other
case it is removed iff one of its types has polarity `false`, or some value
has polarity `true` and none of its types does. -/
theorem c6_types_filter (m : List (String × Bool)) (s : Species)
    (hkeys : (m.map Prod.fst).Nodup)
    (hlen : s.types.length ≤ 2) (hnd : s.types.Nodup) :
    (∀ a b, trueKeys m = [a, b] →
       (typesDel m s = false ↔ s.types = [a, b] ∨ s.types = [b, a])) ∧
    (countTrue m ≠ 2 →
       (typesDel m s = true ↔
         (∃ ty ∈ s.types, alookup m ty = some false) ∨
         (0 < countTrue m ∧ ∀ ty ∈ s.types, alookup m ty ≠ some true))) := by
  have hslots : s.types = [] ∨ (∃ t0, s.types = [t0]) ∨
      (∃ t0 t1, s.types = [t0, t1] ∧ t0 ≠ t1) := by
    rcases hts : s.types with _ | ⟨t0, _ | ⟨t1, rest2⟩⟩
    · exact Or.inl rfl
    · exact Or.inr (Or.inl ⟨t0, rfl⟩)
    · have hr2 : rest2 = [] := by
        rw [hts] at hlen
        cases rest2 with
        | nil => rfl
        | cons x xs => simp at hlen
      subst hr2
      rw [hts] at hnd
      simp only [List.nodup_cons, List.mem_singleton, List.not_mem_nil,
        not_false_eq_true, and_true, List.nodup_nil] at hnd
      exact Or.inr (Or.inr ⟨t0, t1, rfl, hnd⟩)
  constructor
  · intro a b htk
    have hc2 : (countTrue m == 2) = true := by
      rw [countTrue_eq_length_trueKeys, htk]
      rfl
    have hab : a ≠ b := by
      have hsub : List.Sublist (trueKeys m) (m.map Prod.fst) :=
        (List.filter_sublist m).map Prod.fst
      have hndk : (trueKeys m).Nodup := hsub.nodup hkeys
      rw [htk] at hndk
      simp only [List.nodup_cons, List.mem_singleton, List.not_mem_nil,
        not_false_eq_true, and_true, List.nodup_nil] at hndk
      exact hndk
    have hdel : typesDel m s =
        (!truthy (slotLookup m (s.types.get? 0)) ||
         !truthy (slotLookup m (s.types.get? 1))) := by
      unfold typesDel
      rw [hc2]
      simp
    rcases hslots with hts | ⟨t0, hts⟩ | ⟨t0, t1, hts, ht01⟩
    · rw [hdel]
      simp [hts, slotLookup, truthy]
    · rw [hdel]
      simp [hts, slotLookup, truthy]
    · have h0 : (alookup m t0 = some true) ↔ (t0 = a ∨ t0 = b) := by
        rw [alookup_some_true_iff m hkeys, htk]
        simp
      have h1 : (alookup m t1 = some true) ↔ (t1 = a ∨ t1 = b) := by
        rw [alookup_some_true_iff m hkeys, htk]
        simp
      rw [hdel, hts]
      simp only [List.get?_cons_zero, List.get?_cons_succ, List.get?_nil,
        slotLookup, truthy, Bool.or_eq_false_iff, Bool.not_eq_false',
        beq_iff_eq, List.cons.injEq, and_true]
      rw [h0, h1]
      constructor
      · rintro ⟨h0v, h1v⟩
        rcases h0v with rfl | rfl
        · rcases h1v with rfl | rfl
          · exact absurd rfl ht01
          · exact Or.inl ⟨rfl, rfl⟩
        · rcases h1v with rfl | rfl
          · exact Or.inr ⟨rfl, rfl⟩
          · exact absurd rfl ht01
      · rintro (⟨rfl, rfl⟩ | ⟨rfl, rfl⟩)
        · exact ⟨Or.inl rfl, Or.inr rfl⟩
        · exact ⟨Or.inr rfl, Or.inl rfl⟩
  · intro hc2
    have hc2b : (countTrue m == 2) = false := by simpa using hc2
    have hdel : typesDel m s =
        (slotLookup m (s.types.get? 0) == some false ||
         slotLookup m (s.types.get? 1) == some false ||
         (decide (countTrue m > 0) && !truthy (slotLookup m (s.types.get? 0)) &&
          !truthy (slotLookup m (s.types.get? 1)))) := by
      unfold typesDel
      rw [hc2b]
      simp
    rw [hdel]
    rcases hslots with hts | ⟨t0, hts⟩ | ⟨t0, t1, hts, _⟩
    · by_cases hp : 0 < countTrue m <;>
        simp [hts, slotLookup, truthy, hp]
    · rcases h0 : alookup m t0 with _ | _ | _ <;>
        by_cases hp : 0 < countTrue m <;>
          simp [hts, slotLookup, truthy, h0, hp]
    · rcases h0 : alookup m t0 with _ | _ | _ <;>
        rcases h1 : alookup m t1 with _ | _ | _ <;>
          by_cases hp : 0 < countTrue m <;>
            simp [hts, slotLookup, truthy, h0, h1, hp]

/-- A two-typed species for the C6 witness. -/
def c6mon : Species :=
  mkMon "volcanion" "Volcanion" ["Fire", "Water"] "OU" [] none "Volcanion" (some [])

/-- Witness for C6, both branches: the exactly-two-true case on
`{Fire: true, Water: true}` and the generic case on `{Fire: false}`. -/
theorem c6_witness :
    (typesDel [("Fire", true), ("Water", true)] c6mon = false ↔
       c6mon.types = ["Fire", "Water"] ∨ c6mon.types = ["Water", "Fire"]) ∧
    (typesDel [("Fire", false)] c6mon = true ↔
       (∃ ty ∈ c6mon.types, alookup [("Fire", false)] ty = some false) ∨
       (0 < countTrue [("Fire", false)] ∧
        ∀ ty ∈ c6mon.types, alookup [("Fire", false)] ty ≠ some true)) :=
  ⟨(c6_types_filter [("Fire", true), ("Water", true)] c6mon (by decide) (by decide)
      (by decide)).1 "Fire" "Water" rfl,
   (c6_types_filter [("Fire", false)] c6mon (by decide) (by decide) (by decide)).2
      (by decide)⟩

/-- Membership in a successful effectful filter comes from the input list. -/
theorem filterME_mem (f : Species → Except DexOut Bool) (l r : List Species)
    (h : filterME f l = .ok r) : ∀ x ∈ r, x ∈ l := by
  induction l generalizing r with
  | nil =>
    injection h with h
    subst h
    intro x hx
    exact hx
  | cons s rest ih =>
    unfold filterME at h
    cases hf : f s with
    | error e => rw [hf] at h; cases h
    | ok k =>
      rw [hf] at h
      cases hr : filterME f rest with
      | error e => rw [hr] at h; cases h
      | ok r2 =>
        rw [hr] at h
        injection h with h
        subst h
        intro x hx
        cases k with
        | true =>
          rcases (List.mem_cons).mp hx with rfl | hx2
          · exact List.mem_cons_self _ _
          · exact List.mem_cons_of_mem _ (ih r2 hr x hx2)
        | false => exact List.mem_cons_of_mem _ (ih r2 hr x hx)

/-- Membership through one optional `List.filter` stage. -/
theorem mem_of_filterIf (c : Prop) [Decidable c] (l : List Species)
    (p : Species → Bool) (x : Species) (h : x ∈ (if c then l else l.filter p)) :
    x ∈ l := by
  split_ifs at h
  · exact h
  · exact List.mem_of_mem_filter h

/-- A species surviving the category filters was in the working set. -/
theorem runFilters_mem (cat : Catalog) (fuel : Nat) (st : SearchState)
    (dex d : List Species) (h : runFilters cat fuel st dex = .ok d) :
    ∀ x ∈ d, x ∈ dex := by
  unfold runFilters at h
  cases hm : (if st.moves.isEmpty then Except.ok dex
              else filterME (movesKeep cat fuel st.moves) dex :
              Except DexOut (List Species)) with
  | error e => rw [hm] at h; cases h
  | ok d1 =>
    rw [hm] at h
    injection h with h
    subst h
    have h1 : ∀ x ∈ d1, x ∈ dex := by
      by_cases hmv : st.moves.isEmpty
      · rw [if_pos hmv] at hm
        injection hm with hm
        subst hm
        exact fun x hx => hx
      · rw [if_neg hmv] at hm
        exact filterME_mem _ _ _ hm
    intro x hx
    replace hx := mem_of_filterIf (st.color.isEmpty = true) _ _ x hx
    replace hx := mem_of_filterIf (st.gen.isEmpty = true) _ _ x hx
    replace hx := mem_of_filterIf (st.tier.isEmpty = true) _ _ x hx
    replace hx := mem_of_filterIf (st.ability.isEmpty = true) _ _ x hx
    replace hx := mem_of_filterIf (st.types.isEmpty = true) _ _ x hx
    exact h1 x hx

/-- A name surviving deduplication was in the input name list. -/
theorem dedup_go_mem (cat : Catalog) (names : List String) (l out : List String)
    (h : dedup.go cat names l = .ok out) : ∀ x ∈ out, x ∈ l := by
  induction l generalizing out with
  | nil =>
    injection h with h
    subst h
    intro x hx
    exact hx
  | cons n rest ih =>
    unfold dedup.go at h
    cases hk : dedupKeep cat names n with
    | error e => rw [hk] at h; cases h
    | ok k =>
      rw [hk] at h
      cases hr : dedup.go cat names rest with
      | error e => rw [hr] at h; cases h
      | ok r2 =>
        rw [hr] at h
        injection h with h
        subst h
        intro x hx
        cases k with
        | true =>
          rcases (List.mem_cons).mp hx with rfl | hx2
          · exact List.mem_cons_self _ _
          · exact List.mem_cons_of_mem _ (ih r2 hr x hx2)
        | false => exact List.mem_cons_of_mem _ (ih r2 hr x hx)

/-- C7: a species whose tier is Unreleased or Illegal never appears in the
pipeline's output, and a CAP species appears only when the tier category maps
`cap` to polarity `true` - for every predicate state, i.e. for every query. -/
theorem c7_base_admissibility
    (cat : Catalog) (fuel : Nat) (st : SearchState) (s : Species)
    (out : List String)
    (hnames : (cat.pokedex.map (fun t => t.species)).Nodup)
    (hs : s ∈ cat.pokedex)
    (hbad : s.tier = "Unreleased" ∨ s.tier = "Illegal" ∨
            (s.tier = "CAP" ∧ alookup st.tier "cap" ≠ some true))
    (hout : dexPipelineNames cat fuel st = .ok out) :
    s.species ∉ out := by
  have hbk : baseKeep st s = false := by
    rcases hbad with h | h | ⟨h, hcap⟩
    · simp [baseKeep, h]
    · simp [baseKeep, h]
    · have : truthy (alookup st.tier "cap") = false := by
        rcases hv : alookup st.tier "cap" with _ | _ | _
        · rfl
        · rfl
        · exact absurd hv hcap
      simp [baseKeep, h, this]
  intro hmem
  unfold dexPipelineNames at hout
  cases hrf : runFilters cat fuel st (cat.pokedex.filter (baseKeep st)) with
  | error e => rw [hrf] at hout; cases hout
  | ok dex2 =>
    rw [hrf] at hout
    have hout2 : dedup.go cat (dex2.map (fun t => t.species))
        (dex2.map (fun t => t.species)) = .ok out := hout
    have hsub := dedup_go_mem cat (dex2.map (fun t => t.species))
      (dex2.map (fun t => t.species)) out hout2
    have hnm : s.species ∈ dex2.map (fun t => t.species) := hsub _ hmem
    obtain ⟨s2, hs2, hspm⟩ := List.mem_map.mp hnm
    have hs2dex : s2 ∈ cat.pokedex.filter (baseKeep st) :=
      runFilters_mem cat fuel st _ dex2 hrf s2 hs2
    have hs2pk : s2 ∈ cat.pokedex := List.mem_of_mem_filter hs2dex
    have : s2 = s := List.inj_on_of_nodup_map hnames hs2pk hs hspm
    subst this
    have : baseKeep st s2 = true := (List.mem_filter.mp hs2dex).2
    rw [hbk] at this
    cases this

def c7amon : Species := mkMon "a" "A" ["Grass"] "OU" [] none "A" (some [])
def c7unrel : Species := mkMon "unrel" "Unrel" ["Grass"] "Unreleased" [] none "Unrel" (some [])
def c7cap : Species := mkMon "capmon" "Capmon" ["Grass"] "CAP" [] none "Capmon" (some [])

def c7cat : Catalog :=
  { pokedex := [c7amon, c7unrel, c7cap], moves := [], abilities := [],
    typeNames := ["Grass"], lcBanlist := [] }

/-- Witness for C7: with no predicates at all, the Unreleased species and the
CAP species are both absent from the pipeline output `["A"]`. -/
theorem c7_witness :
    c7unrel.species ∉ (["A"] : List String) ∧
    c7cap.species ∉ (["A"] : List String) :=
  ⟨c7_base_admissibility c7cat 1 initState c7unrel ["A"] (by decide) (by decide)
      (Or.inl rfl) rfl,
   c7_base_admissibility c7cat 1 initState c7cap ["A"] (by decide) (by decide)
      (Or.inr (Or.inr ⟨rfl, by decide⟩)) rfl⟩

/-- A species found by a catalog lookup is a catalog entry. -/
theorem getTemplate_mem (cat : Catalog) (k : String) (t : Species)
    (h : getTemplate cat k = some t) : t ∈ cat.pokedex :=
  List.mem_of_find?_eq_some h

/-- `rank` certifies that the prevolution back-references form no cycle:
every prevolution id of a catalog entry resolves, to a template of strictly
smaller rank. -/
def prevoRankedB (cat : Catalog) (rank : String → Nat) : Bool :=
  cat.pokedex.all fun s =>
    match s.prevo with
    | none => true
    | some p =>
      match getTemplate cat p with
      | none => false
      | some t => decide (rank t.id < rank s.id)

/-- Unpack `prevoRankedB` at one catalog entry with a prevolution. -/
theorem prevoRankedB_step (cat : Catalog) (rank : String → Nat)
    (hw : prevoRankedB cat rank = true) (s : Species) (hs : s ∈ cat.pokedex)
    (p : String) (hp : s.prevo = some p) :
    ∃ t, getTemplate cat p = some t ∧ rank t.id < rank s.id := by
  have h := List.all_eq_true.mp hw s hs
  rw [hp] at h
  have h2 : (match getTemplate cat p with
             | none => false
             | some t => decide (rank t.id < rank s.id)) = true := h
  cases hg : getTemplate cat p with
  | none =>
    rw [hg] at h2
    have h3 : false = true := h2
    exact Bool.noConfusion h3
  | some t =>
    rw [hg] at h2
    exact ⟨t, rfl, of_decide_eq_true (h2 : decide (rank t.id < rank s.id) = true)⟩

/-- Unfolding equation for the walk with positive fuel. -/
theorem walk_succ (cat : Catalog) (f : Nat) (t : Species) (mid : String) :
    walk cat (f + 1) t mid =
      (match t.prevo, t.learnset with
       | some p, some ls =>
         if ls.contains mid then Except.ok t
         else
           match getTemplate cat p with
           | some t2 => walk cat f t2 mid
           | none => Except.error DexOut.crash
       | some _, none => Except.ok t
       | none, _ => Except.ok t) := rfl

/-- C8: over a catalog whose prevolution back-references form no cycle (as
certified by a rank function), the move-learnability walk started at any
catalog entry terminates with fuel exceeding the start's rank, at a link with
no prevolution, no learnset, or a learnset containing the move. -/
theorem c8_walk_terminates (cat : Catalog) (rank : String → Nat) (fuel : Nat)
    (t : Species) (mid : String)
    (hw : prevoRankedB cat rank = true)
    (ht : t ∈ cat.pokedex)
    (hfuel : rank t.id < fuel) :
    ∃ t2, walk cat fuel t mid = .ok t2 ∧
      (t2.prevo = none ∨ t2.learnset = none ∨
       ∃ ls, t2.learnset = some ls ∧ mid ∈ ls) := by
  induction fuel generalizing t with
  | zero => omega
  | succ f ih =>
    rcases hp : t.prevo with _ | p
    · exact ⟨t, by rw [walk_succ, hp], Or.inl hp⟩
    rcases hl : t.learnset with _ | ls
    · exact ⟨t, by rw [walk_succ, hp, hl], Or.inr (Or.inl hl)⟩
    rcases hc : ls.contains mid with _ | _
    · obtain ⟨t2, hgt, hrank⟩ := prevoRankedB_step cat rank hw t ht p hp
      have ht2 : t2 ∈ cat.pokedex := getTemplate_mem cat p t2 hgt
      have hf2 : rank t2.id < f := by
        have hle : rank t.id ≤ f := Nat.lt_succ_iff.mp hfuel
        omega
      obtain ⟨t3, hw3, hterm⟩ := ih t2 ht2 hf2
      refine ⟨t3, ?_, hterm⟩
      rw [walk_succ, hp, hl]
      show (if ls.contains mid then Except.ok t
            else match getTemplate cat p with
                 | some t2 => walk cat f t2 mid
                 | none => Except.error DexOut.crash) = Except.ok t3
      rw [hc]
      show (match getTemplate cat p with
            | some t2 => walk cat f t2 mid
            | none => Except.error DexOut.crash) = Except.ok t3
      rw [hgt]
      exact hw3
    · refine ⟨t, ?_, Or.inr (Or.inr ⟨ls, hl, List.elem_iff.mp hc⟩)⟩
      rw [walk_succ, hp, hl]
      show (if ls.contains mid then Except.ok t
            else match getTemplate cat p with
                 | some t2 => walk cat f t2 mid
                 | none => Except.error DexOut.crash) = Except.ok t
      rw [hc]
      rfl

def c8e0 : Species := mkMon "e0" "E0" ["Grass"] "OU" ["e1"] none "E0" (some ["m"])
def c8e1 : Species := mkMon "e1" "E1" ["Grass"] "OU" [] (some "e0") "E0" (some [])

def c8cat : Catalog :=
  { pokedex := [c8e1, c8e0], moves := [⟨"m", "M"⟩], abilities := [],
    typeNames := ["Grass"], lcBanlist := [] }

def c8rank : String → Nat := fun i => if i == "e0" then 0 else 1

/-- Witness for C8: the two-link chain E1 → E0 terminates within fuel 2. -/
theorem c8_witness :
    ∃ t2, walk c8cat 2 c8e1 "m" = .ok t2 ∧
      (t2.prevo = none ∨ t2.learnset = none ∨
       ∃ ls, t2.learnset = some ls ∧ "m" ∈ ls) :=
  c8_walk_terminates c8cat c8rank 2 c8e1 "m" (by decide) (by decide) (by decide)

/-- Spec-side (claim wording): the current link's learnset lacks the move. -/
def lacksB (t : Species) (mid : String) : Bool :=
  match t.learnset with
  | some ls => !ls.contains mid
  | none => true

/-- Spec-side (claim wording): step to the prevolution while the current link
has a prevolution and its learnset lacks the move; `none` on fuel exhaustion
or an unresolvable prevolution id. -/
def chainWalkSpec (cat : Catalog) : Nat → Species → String → Option Species
  | 0, _, _ => none
  | f + 1, t, mid =>
    match t.prevo with
    | none => some t
    | some p =>
      if lacksB t mid then
        match getTemplate cat p with
        | some t2 => chainWalkSpec cat f t2 mid
        | none => none
      else some t

/-- Unfolding equation for the spec-side walk with positive fuel. -/
theorem chainWalkSpec_succ (cat : Catalog) (f : Nat) (t : Species) (mid : String) :
    chainWalkSpec cat (f + 1) t mid =
      (match t.prevo with
       | none => some t
       | some p =>
         if lacksB t mid then
           match getTemplate cat p with
           | some t2 => chainWalkSpec cat f t2 mid
           | none => none
         else some t) := rfl

/-- Spec-side (claim wording): the species can learn the move iff the terminal
link's learnset contains it, or grants the universal sketch legality and the
move is not sketch-excluded. -/
def canLearnSpecB (cat : Catalog) (fuel : Nat) (t : Species) (mid : String) : Bool :=
  match chainWalkSpec cat fuel t mid with
  | none => false
  | some t2 =>
    match t2.learnset with
    | some ls => ls.contains mid || (ls.contains "sketch" && !sketchExcluded.contains mid)
    | none => false

/-- Spec-side (claim wording): the species is kept iff no constrained move is
violated - an included move it cannot learn, or an excluded move it can. -/
def movesKeepSpec (cat : Catalog) (fuel : Nat) (m : List (String × Bool))
    (s : Species) : Bool :=
  m.all fun pr =>
    match getMove cat pr.1 with
    | none => true
    | some mo =>
      let cl := canLearnSpecB cat fuel s mo.id
      !((!cl && pr.2) || (pr.2 == false && cl))

/-- `rank` certifies acyclic, resolving prevolution references whose targets
all carry learnsets. -/
def prevoSafeB (cat : Catalog) (rank : String → Nat) : Bool :=
  cat.pokedex.all fun s =>
    match s.prevo with
    | none => true
    | some p =>
      match getTemplate cat p with
      | none => false
      | some t => decide (rank t.id < rank s.id) && t.learnset.isSome

/-- Unpack `prevoSafeB` at one catalog entry with a prevolution. -/
theorem prevoSafeB_step (cat : Catalog) (rank : String → Nat)
    (hw : prevoSafeB cat rank = true) (s : Species) (hs : s ∈ cat.pokedex)
    (p : String) (hp : s.prevo = some p) :
    ∃ t, getTemplate cat p = some t ∧ rank t.id < rank s.id ∧
      t.learnset.isSome = true := by
  have h := List.all_eq_true.mp hw s hs
  rw [hp] at h
  have h2 : (match getTemplate cat p with
             | none => false
             | some t => decide (rank t.id < rank s.id) && t.learnset.isSome) = true := h
  cases hg : getTemplate cat p with
  | none =>
    rw [hg] at h2
    have h3 : false = true := h2
    exact Bool.noConfusion h3
  | some t =>
    rw [hg] at h2
    have h3 : (decide (rank t.id < rank s.id) && t.learnset.isSome) = true := h2
    rw [Bool.and_eq_true] at h3
    exact ⟨t, rfl, of_decide_eq_true h3.1, h3.2⟩

/-- Over a safe catalog, the source walk and the claim's walk agree, and the
terminal link is a catalog entry with a learnset. -/
theorem walk_eq_spec (cat : Catalog) (rank : String → Nat)
    (hw : prevoSafeB cat rank = true) (mid : String) :
    ∀ fuel t, t ∈ cat.pokedex → t.learnset.isSome = true → rank t.id < fuel →
    ∃ t2 ls2, walk cat fuel t mid = .ok t2 ∧
      chainWalkSpec cat fuel t mid = some t2 ∧
      t2.learnset = some ls2 ∧ t2 ∈ cat.pokedex := by
  intro fuel
  induction fuel with
  | zero =>
    intro t _ _ h
    omega
  | succ f ih =>
    intro t ht hls hfuel
    rcases hlso : t.learnset with _ | ls
    · rw [hlso] at hls
      cases hls
    rcases hp : t.prevo with _ | p
    · refine ⟨t, ls, ?_, ?_, hlso, ht⟩
      · rw [walk_succ, hp]
      · rw [chainWalkSpec_succ, hp]
    · rcases hc : ls.contains mid with _ | _
      · obtain ⟨t2, hgt, hrank, hls2⟩ := prevoSafeB_step cat rank hw t ht p hp
        have ht2 := getTemplate_mem cat p t2 hgt
        have hf2 : rank t2.id < f := by omega
        obtain ⟨t3, ls3, hwk, hsp, hls3, ht3⟩ := ih t2 ht2 hls2 hf2
        refine ⟨t3, ls3, ?_, ?_, hls3, ht3⟩
        · rw [walk_succ, hp, hlso]
          show (if ls.contains mid then Except.ok t
                else match getTemplate cat p with
                     | some t2 => walk cat f t2 mid
                     | none => Except.error DexOut.crash) = Except.ok t3
          rw [hc]
          show (match getTemplate cat p with
                | some t2 => walk cat f t2 mid
                | none => Except.error DexOut.crash) = Except.ok t3
          rw [hgt]
          exact hwk
        · rw [chainWalkSpec_succ, hp]
          have hlk : lacksB t mid = true := by
            unfold lacksB
            rw [hlso]
            show (!ls.contains mid) = true
            rw [hc]
            rfl
          show (if lacksB t mid then
                  match getTemplate cat p with
                  | some t2 => chainWalkSpec cat f t2 mid
                  | none => none
                else some t) = some t3
          rw [hlk]
          show (match getTemplate cat p with
                | some t2 => chainWalkSpec cat f t2 mid
                | none => none) = some t3
          rw [hgt]
          exact hsp
      · refine ⟨t, ls, ?_, ?_, hlso, ht⟩
        · rw [walk_succ, hp, hlso]
          show (if ls.contains mid then Except.ok t
                else match getTemplate cat p with
                     | some t2 => walk cat f t2 mid
                     | none => Except.error DexOut.crash) = Except.ok t
          rw [hc]
          rfl
        · rw [chainWalkSpec_succ, hp]
          have hlk : lacksB t mid = false := by
            unfold lacksB
            rw [hlso]
            show (!ls.contains mid) = false
            rw [hc]
            rfl
          show (if lacksB t mid then
                  match getTemplate cat p with
                  | some t2 => chainWalkSpec cat f t2 mid
                  | none => none
                else some t) = some t
          rw [hlk]
          rfl

/-- Unfolding equation for the per-species move loop on a nonempty map. -/
theorem movesEval_cons (cat : Catalog) (fuel : Nat) (t : Species)
    (mv : String) (pol : Bool) (rest : List (String × Bool)) (d : Bool) :
    movesEval cat fuel t ((mv, pol) :: rest) d =
      (match getMove cat mv with
       | none => Except.error (DexOut.reply (unknownMoveMsg mv))
       | some mo =>
         match getTemplate cat t.id with
         | none => Except.error DexOut.crash
         | some tw =>
           match walk cat fuel tw mo.id with
           | Except.error h => Except.error h
           | Except.ok term =>
             match canLearnB term mo.id with
             | Except.error h => Except.error h
             | Except.ok cl =>
               movesEval cat fuel t rest
                 (d || ((!cl && pol) || (pol == false && cl)))) := rfl

/-- Over a safe catalog, the per-species move loop computes exactly the
claim's keep condition (conjoined with not-already-deleted). -/
theorem movesEval_eq_spec (cat : Catalog) (rank : String → Nat)
    (hw : prevoSafeB cat rank = true) (fuel : Nat) (t : Species)
    (ht : t ∈ cat.pokedex) (hls : t.learnset.isSome = true)
    (hid : getTemplate cat t.id = some t) (hfuel : rank t.id < fuel) :
    ∀ (m : List (String × Bool)) (d : Bool),
      m.all (fun pr => (getMove cat pr.1).isSome) = true →
      movesEval cat fuel t m d = .ok (!d && movesKeepSpec cat fuel m t) := by
  intro m
  induction m with
  | nil =>
    intro d _
    show Except.ok (!d) = Except.ok (!d && movesKeepSpec cat fuel [] t)
    rw [show movesKeepSpec cat fuel [] t = true from rfl, Bool.and_true]
  | cons pr rest ih =>
    obtain ⟨mv, pol⟩ := pr
    intro d hmv
    simp only [List.all_cons, Bool.and_eq_true] at hmv
    rcases hmo : getMove cat mv with _ | mo
    · rw [hmo] at hmv
      cases hmv.1
    obtain ⟨term, ls2, hwk, hsp, hls2, hterm⟩ :=
      walk_eq_spec cat rank hw mo.id fuel t ht hls hfuel
    have hcl : canLearnB term mo.id = .ok (canLearnSpecB cat fuel t mo.id) := by
      unfold canLearnB canLearnSpecB
      rw [hls2, hsp]
      show Except.ok ((ls2.contains "sketch" && !sketchExcluded.contains mo.id) ||
        ls2.contains mo.id) = Except.ok
          (match term.learnset with
           | some ls => ls.contains mo.id ||
               (ls.contains "sketch" && !sketchExcluded.contains mo.id)
           | none => false)
      rw [hls2]
      show Except.ok ((ls2.contains "sketch" && !sketchExcluded.contains mo.id) ||
        ls2.contains mo.id) = Except.ok (ls2.contains mo.id ||
          (ls2.contains "sketch" && !sketchExcluded.contains mo.id))
      rw [Bool.or_comm]
    rw [movesEval_cons, hmo]
    show (match getTemplate cat t.id with
          | none => Except.error DexOut.crash
          | some tw =>
            match walk cat fuel tw mo.id with
            | Except.error h => Except.error h
            | Except.ok term =>
              match canLearnB term mo.id with
              | Except.error h => Except.error h
              | Except.ok cl =>
                movesEval cat fuel t rest
                  (d || ((!cl && pol) || (pol == false && cl)))) = _
    rw [hid]
    show (match walk cat fuel t mo.id with
          | Except.error h => Except.error h
          | Except.ok term =>
            match canLearnB term mo.id with
            | Except.error h => Except.error h
            | Except.ok cl =>
              movesEval cat fuel t rest
                (d || ((!cl && pol) || (pol == false && cl)))) = _
    rw [hwk]
    show (match canLearnB term mo.id with
          | Except.error h => Except.error h
          | Except.ok cl =>
            movesEval cat fuel t rest
              (d || ((!cl && pol) || (pol == false && cl)))) = _
    rw [hcl]
    show movesEval cat fuel t rest
        (d || ((!canLearnSpecB cat fuel t mo.id && pol) ||
               (pol == false && canLearnSpecB cat fuel t mo.id))) = _
    rw [ih _ hmv.2]
    have hspec : movesKeepSpec cat fuel ((mv, pol) :: rest) t =
        ((!((!canLearnSpecB cat fuel t mo.id && pol) ||
            (pol == false && canLearnSpecB cat fuel t mo.id))) &&
         movesKeepSpec cat fuel rest t) := by
      unfold movesKeepSpec
      rw [List.all_cons]
      show ((match getMove cat mv with
             | none => true
             | some mo =>
               let cl := canLearnSpecB cat fuel t mo.id
               !((!cl && pol) || (pol == false && cl))) && _) = _
      rw [hmo]
    rw [hspec, Bool.not_or, Bool.and_assoc]

/-- C2: over a safe catalog (acyclic resolving prevolutions whose targets
have learnsets, sufficient fuel, existing constrained moves), the move filter
evaluates a species with a learnset exactly as the claim describes: walk the
prevolution chain from the species while the link has a prevolution and its
learnset lacks the move; the species can learn the move iff the terminal
link's learnset contains it or grants sketch legality for a non-excluded
move; the species is kept iff no included move is unlearnable and no excluded
move is learnable. -/
theorem c2_moves_walk_confirmed (cat : Catalog) (rank : String → Nat)
    (fuel : Nat) (m : List (String × Bool)) (s : Species)
    (hw : prevoSafeB cat rank = true) (hs : s ∈ cat.pokedex)
    (hid : getTemplate cat s.id = some s) (hls : s.learnset.isSome = true)
    (hfuel : rank s.id < fuel)
    (hmv : m.all (fun pr => (getMove cat pr.1).isSome) = true) :
    movesKeep cat fuel m s = .ok (movesKeepSpec cat fuel m s) ∧
    (movesKeep cat fuel m s = .ok true ↔
      ∀ pr ∈ m, ∀ mo : MoveData, getMove cat pr.1 = some mo →
        ¬((canLearnSpecB cat fuel s mo.id = false ∧ pr.2 = true) ∨
          (canLearnSpecB cat fuel s mo.id = true ∧ pr.2 = false))) := by
  have hnn : s.learnset.isNone = false := by
    rcases hlso : s.learnset with _ | ls
    · rw [hlso] at hls
      cases hls
    · rfl
  have h1 : movesKeep cat fuel m s = .ok (movesKeepSpec cat fuel m s) := by
    unfold movesKeep
    rw [hid]
    show (match (if s.learnset.isSome then some s else getTemplate cat s.baseSpecies) with
          | none => Except.error DexOut.crash
          | some t =>
            if t.learnset.isNone then Except.ok true
            else movesEval cat fuel t m false) = _
    rw [hls]
    show (if s.learnset.isNone then Except.ok true
          else movesEval cat fuel s m false) = _
    rw [hnn]
    show movesEval cat fuel s m false = _
    rw [movesEval_eq_spec cat rank hw fuel s hs hls hid hfuel m false hmv]
    rw [show (!false) = true from rfl, Bool.true_and]
  refine ⟨h1, ?_⟩
  rw [h1]
  simp only [Except.ok.injEq]
  unfold movesKeepSpec
  rw [List.all_eq_true]
  constructor
  · intro h pr hpr mo hmo
    have hb := h pr hpr
    rw [hmo] at hb
    have hb2 : (!((!canLearnSpecB cat fuel s mo.id && pr.2) ||
        (pr.2 == false && canLearnSpecB cat fuel s mo.id))) = true := hb
    intro habs
    rcases habs with ⟨hcl, hpol⟩ | ⟨hcl, hpol⟩ <;>
      rw [hcl, hpol] at hb2 <;> exact Bool.noConfusion hb2
  · intro h pr hpr
    rcases hmo : getMove cat pr.1 with _ | mo
    · simp only [hmo]
    · have hne := h pr hpr mo hmo
      simp only [hmo]
      rcases hcl : canLearnSpecB cat fuel s mo.id with _ | _ <;>
        rcases hpol : pr.2 with _ | _
      · simp [hcl, hpol]
      · exact absurd (Or.inl ⟨hcl, hpol⟩) hne
      · exact absurd (Or.inr ⟨hcl, hpol⟩) hne
      · simp [hcl, hpol]

def c2bulba : Species :=
  mkMon "bulbasaur" "Bulbasaur" ["Grass", "Poison"] "LC" ["ivysaur"] none
    "Bulbasaur" (some ["tackle"])

def c2ivy : Species :=
  mkMon "ivysaur" "Ivysaur" ["Grass", "Poison"] "NU" ["venusaur"]
    (some "bulbasaur") "Bulbasaur" (some ["razorleaf"])

def c2cat : Catalog :=
  { pokedex := [c2bulba, c2ivy],
    moves := [⟨"tackle", "Tackle"⟩, ⟨"razorleaf", "Razor Leaf"⟩],
    abilities := [], typeNames := ["Grass", "Poison"], lcBanlist := [] }

def c2rank : String → Nat := fun i => if i == "bulbasaur" then 0 else 1

/-- Witness for C2: Ivysaur's learnset lacks Tackle, the walk ascends to
Bulbasaur whose learnset contains it, and Ivysaur is kept under the included
move Tackle. -/
theorem c2_witness :
    movesKeep c2cat 3 [("Tackle", true)] c2ivy =
      .ok (movesKeepSpec c2cat 3 [("Tackle", true)] c2ivy) ∧
    (movesKeep c2cat 3 [("Tackle", true)] c2ivy = .ok true ↔
      ∀ pr ∈ [(("Tackle" : String), true)], ∀ mo : MoveData,
        getMove c2cat pr.1 = some mo →
        ¬((canLearnSpecB c2cat 3 c2ivy mo.id = false ∧ pr.2 = true) ∨
          (canLearnSpecB c2cat 3 c2ivy mo.id = true ∧ pr.2 = false))) :=
  c2_moves_walk_confirmed c2cat c2rank 3 [("Tackle", true)] c2ivy
    (by decide) (by decide) (by decide) (by decide) (by decide) (by decide)

/-- An outcome the chat layer receives as a plain message: a produced value
or an early reply - never a thrown TypeError or a non-terminating loop. -/
def GoodE {α : Type} : Except DexOut α → Prop
  | .ok _ => True
  | .error (.reply _) => True
  | .error .crash => False
  | .error .hang => False

/-- Catalog well-formedness for totality: canonical unique ids, display and
base-species names that resolve, safe prevolution references, and ranks below
the fuel the command allots. -/
def wfTotalB (cat : Catalog) (rank : String → Nat) : Bool :=
  (cat.pokedex.all fun s => decide (getTemplate cat s.id = some s)) &&
  (cat.pokedex.all fun s => (getTemplate cat s.species).isSome) &&
  (cat.pokedex.all fun s => (getTemplate cat s.baseSpecies).isSome) &&
  prevoSafeB cat rank &&
  (cat.pokedex.all fun s => decide (rank s.id < cat.pokedex.length + 1))

theorem wfTotal_parts (cat : Catalog) (rank : String → Nat)
    (h : wfTotalB cat rank = true) :
    (∀ s ∈ cat.pokedex, getTemplate cat s.id = some s) ∧
    (∀ s ∈ cat.pokedex, (getTemplate cat s.species).isSome = true) ∧
    (∀ s ∈ cat.pokedex, (getTemplate cat s.baseSpecies).isSome = true) ∧
    prevoSafeB cat rank = true ∧
    (∀ s ∈ cat.pokedex, rank s.id < cat.pokedex.length + 1) := by
  simp only [wfTotalB, Bool.and_eq_true] at h
  obtain ⟨⟨⟨⟨h1, h2⟩, h3⟩, h4⟩, h5⟩ := h
  refine ⟨?_, ?_, ?_, h4, ?_⟩
  · intro s hs
    exact of_decide_eq_true (List.all_eq_true.mp h1 s hs)
  · intro s hs
    exact List.all_eq_true.mp h2 s hs
  · intro s hs
    exact List.all_eq_true.mp h3 s hs
  · intro s hs
    exact of_decide_eq_true (List.all_eq_true.mp h5 s hs)

/-- Over a safe catalog the per-species move loop never crashes or hangs. -/
theorem movesEval_good (cat : Catalog) (rank : String → Nat)
    (hw : prevoSafeB cat rank = true) (fuel : Nat) (t : Species)
    (ht : t ∈ cat.pokedex) (hls : t.learnset.isSome = true)
    (hid : getTemplate cat t.id = some t) (hfuel : rank t.id < fuel) :
    ∀ (m : List (String × Bool)) (d : Bool), GoodE (movesEval cat fuel t m d) := by
  intro m
  induction m with
  | nil =>
    intro d
    trivial
  | cons pr rest ih =>
    obtain ⟨mv, pol⟩ := pr
    intro d
    rcases hmo : getMove cat mv with _ | mo
    · simp only [movesEval_cons, hmo]
      trivial
    · obtain ⟨term, ls2, hwk, _, hls2, _⟩ :=
        walk_eq_spec cat rank hw mo.id fuel t ht hls hfuel
      have hcanl : canLearnB term mo.id =
          .ok ((ls2.contains "sketch" && !sketchExcluded.contains mo.id) ||
            ls2.contains mo.id) := by
        unfold canLearnB
        rw [hls2]
      simp only [movesEval_cons, hmo, hid, hwk, hcanl]
      exact ih _

/-- Over a well-formed catalog the per-species move filter never crashes or
hangs with the fuel the command allots. -/
theorem movesKeep_good (cat : Catalog) (rank : String → Nat)
    (hwf : wfTotalB cat rank = true) (m : List (String × Bool)) (s : Species)
    (hs : s ∈ cat.pokedex) :
    GoodE (movesKeep cat (cat.pokedex.length + 1) m s) := by
  obtain ⟨hI, _, hB, hP, hR⟩ := wfTotal_parts cat rank hwf
  have hid := hI s hs
  unfold movesKeep
  rcases hlso : s.learnset with _ | ls
  · rcases hbt : getTemplate cat s.baseSpecies with _ | t1
    · have := hB s hs
      rw [hbt] at this
      cases this
    · have ht1 : t1 ∈ cat.pokedex := getTemplate_mem _ _ _ hbt
      rcases hls1 : t1.learnset with _ | ls1
      · simp only [hid, hlso, Option.isSome_none, Bool.false_eq_true, if_false,
          hbt, hls1, Option.isNone_none, if_true]
        trivial
      · have hid1 := hI t1 ht1
        have hg := movesEval_good cat rank hP (cat.pokedex.length + 1) t1 ht1
          (by rw [hls1]; rfl) hid1 (hR t1 ht1) m false
        simp only [hid, hlso, Option.isSome_none, Bool.false_eq_true, if_false,
          hbt, hls1, Option.isNone_some]
        simpa using hg
  · have hg := movesEval_good cat rank hP (cat.pokedex.length + 1) s hs
      (by rw [hlso]; rfl) hid (hR s hs) m false
    simp only [hid, hlso, Option.isSome_some, if_true, Option.isNone_some]
    simpa using hg

/-- The effectful filter is good when the predicate is good on every
element. -/
theorem filterME_good (f : Species → Except DexOut Bool) (l : List Species)
    (h : ∀ s ∈ l, GoodE (f s)) : GoodE (filterME f l) := by
  induction l with
  | nil => trivial
  | cons s rest ih =>
    have hs := h s (List.mem_cons_self _ _)
    have hrest := ih (fun x hx => h x (List.mem_cons_of_mem _ hx))
    unfold filterME
    rcases hf : f s with a | k
    · rw [hf] at hs
      rcases a with msg | _ | _
      · trivial
      · exact hs.elim
      · exact hs.elim
    · rcases hr : filterME f rest with a | r
      · rw [hr] at hrest
        rcases a with msg | _ | _
        · trivial
        · exact hrest.elim
        · exact hrest.elim
      · trivial

/-- Unfolding equation for deduplication on a nonempty name list. -/
theorem dedup_go_cons (cat : Catalog) (orig : List String) (n : String)
    (rest : List String) :
    dedup.go cat orig (n :: rest) =
      (match dedupKeep cat orig n with
       | Except.error h => Except.error h
       | Except.ok k =>
         match dedup.go cat orig rest with
         | Except.error h => Except.error h
         | Except.ok r => Except.ok (if k then n :: r else r)) := rfl

/-- Deduplication is good when every name resolves. -/
theorem dedup_go_good (cat : Catalog) (orig : List String) (l : List String)
    (h : ∀ x ∈ l, (getTemplate cat x).isSome = true) :
    GoodE (dedup.go cat orig l) := by
  induction l with
  | nil => trivial
  | cons n rest ih =>
    have hn := h n (List.mem_cons_self _ _)
    have hrest := ih (fun x hx => h x (List.mem_cons_of_mem _ hx))
    rw [dedup_go_cons]
    rcases hg : getTemplate cat n with _ | t
    · rw [hg] at hn
      cases hn
    · have hk : dedupKeep cat orig n =
          .ok (!(n != t.baseSpecies && orig.contains t.baseSpecies)) := by
        unfold dedupKeep
        rw [hg]
      rw [hk]
      rcases hr : dedup.go cat orig rest with a | r
      · rw [hr] at hrest
        rcases a with msg | _ | _
        · trivial
        · exact hrest.elim
        · exact hrest.elim
      · trivial

/-- The category filters are good on a working set of catalog entries. -/
theorem runFilters_good (cat : Catalog) (rank : String → Nat)
    (hwf : wfTotalB cat rank = true) (st : SearchState) (dex : List Species)
    (hdex : ∀ s ∈ dex, s ∈ cat.pokedex) :
    GoodE (runFilters cat (cat.pokedex.length + 1) st dex) := by
  unfold runFilters
  rcases hmv : st.moves.isEmpty with _ | _
  · have hg := filterME_good (movesKeep cat (cat.pokedex.length + 1) st.moves) dex
      (fun s hs => movesKeep_good cat rank hwf st.moves s (hdex s hs))
    rcases hfm : filterME (movesKeep cat (cat.pokedex.length + 1) st.moves) dex with a | d1
    · rw [hfm] at hg
      rcases a with msg | _ | _
      · trivial
      · exact hg.elim
      · exact hg.elim
    · trivial
  · trivial

/-- The whole filter pipeline is good over a well-formed catalog. -/
theorem dexPipelineNames_good (cat : Catalog) (rank : String → Nat)
    (st : SearchState) (hwf : wfTotalB cat rank = true) :
    GoodE (dexPipelineNames cat (cat.pokedex.length + 1) st) := by
  obtain ⟨_, hN, _, _, _⟩ := wfTotal_parts cat rank hwf
  unfold dexPipelineNames
  have hdex : ∀ s ∈ cat.pokedex.filter (baseKeep st), s ∈ cat.pokedex :=
    fun s hs => List.mem_of_mem_filter hs
  have hg := runFilters_good cat rank hwf st (cat.pokedex.filter (baseKeep st)) hdex
  rcases hrf : runFilters cat (cat.pokedex.length + 1) st
      (cat.pokedex.filter (baseKeep st)) with a | dex2
  · rw [hrf] at hg
    rcases a with msg | _ | _
    · simp only [hrf]
      trivial
    · exact hg.elim
    · exact hg.elim
  · simp only [hrf]
    apply dedup_go_good
    intro x hx
    obtain ⟨s2, hs2, rfl⟩ := List.mem_map.mp hx
    exact hN s2 (hdex s2 (runFilters_mem cat (cat.pokedex.length + 1) st _ dex2 hrf s2 hs2))

/-- C9 (amended): over a catalog whose prevolution references are acyclic and
resolve to templates with learnsets, whose ids are canonical and unique, and
whose display and base-species names resolve, `dexsearch` completes with a
plain reply string for every query and broadcast context - it neither throws
nor loops. -/
theorem c9_totality_amended (cat : Catalog) (rank : String → Nat)
    (shuffle : List String → List String) (br : Bool) (target : String)
    (hwf : wfTotalB cat rank = true) :
    ∃ msg, dexsearchEmbed cat shuffle br target = .reply msg := by
  unfold dexsearchEmbed
  by_cases ht : (target == "") = true
  · simp only [ht, if_true]
    exact ⟨helpMsg, rfl⟩
  · have ht' : (target == "") = false := by
      rcases h : target == "" with _ | _
      · rfl
      · exact absurd h ht
    simp only [ht', Bool.false_eq_true, if_false]
    rcases hpl : parseLoop cat br initState (splitComma target) with msg | st
    · exact ⟨msg, by simp only [hpl]⟩
    · simp only [hpl]
      by_cases hsa : (st.showAll && mapsCount st == 0 && st.megaSearch == none &&
          st.feSearch == none) = true
      · simp only [hsa, if_true]
        exact ⟨emptyQueryMsg, rfl⟩
      · have hsa' : (st.showAll && mapsCount st == 0 && st.megaSearch == none &&
            st.feSearch == none) = false := by
          rcases h : (st.showAll && mapsCount st == 0 && st.megaSearch == none &&
            st.feSearch == none) with _ | _
          · rfl
          · exact absurd h hsa
        simp only [hsa', Bool.false_eq_true, if_false]
        have hg := dexPipelineNames_good cat rank st hwf
        rcases hpn : dexPipelineNames cat (cat.pokedex.length + 1) st with a | names
        · rw [hpn] at hg
          rcases a with msg | _ | _
          · exact ⟨msg, by simp only [hpn]⟩
          · exact hg.elim
          · exact hg.elim
        · exact ⟨assemble shuffle st.showAll names, by simp only [hpn]⟩

def c9goodA : Species :=
  mkMon "ga" "GA" ["Grass"] "OU" [] (some "gb") "GA" (some [])

def c9goodB : Species :=
  mkMon "gb" "GB" ["Grass"] "OU" ["ga"] none "GB" (some ["m"])

def c9goodCat : Catalog :=
  { pokedex := [c9goodA, c9goodB], moves := [⟨"m", "M"⟩], abilities := [],
    typeNames := ["Grass"], lcBanlist := [] }

def c9rank : String → Nat := fun i => if i == "gb" then 0 else 1

/-- Witness for C9's amended theorem: on a well-formed two-species catalog
the move query `"m"` ends in a plain reply. -/
theorem c9_witness :
    ∃ msg, dexsearchEmbed c9goodCat id false "m" = .reply msg :=
  c9_totality_amended c9goodCat c9rank id false "m" (by decide)

end DexSearch
